import Mathlib

/-!
# gh-metrics: a verification development for `main.go`

The program fetches repository statistics over HTTP, compares them with a
previously saved snapshot and prints a delta report.  This file embeds the
functions of `main.go` as Lean definitions and proves properties of them.

Modelling conventions.

* Go `int` is the 64-bit two's-complement integer.  Values are Lean `Int`s;
  the operations of the source that can leave the range on small inputs (the
  subtractions of `formatMonthlyReport`, the `int(count)` conversion and the
  `+=` of the download total) reduce their result with `wrapInt`.  The two
  unit-step counters of `getAllIssuesCount` (`page++`, `totalIssues++`) are
  unbounded: they would need `2^63` loop iterations to leave the range.
* A Go `float64` produced by `encoding/json` is finite; it is a pair
  mantissa/binary exponent (`Float64`).
* Go strings are Unicode texts, as every string that `encoding/json` decodes.
* The network is the three resources the program reads (`Server`); a request
  either fails, or its body cannot be read, or it delivers a body.
* `encoding/json` and `fmt` are library code: they are modelled on parsed
  JSON texts and on the verbs the program uses.  A body read into untyped
  targets is a `Json` tree, whose number literals may lie outside the range of
  `float64`; what it decodes to is a `Value` tree.
* The unbounded `for` loop of `getAllIssuesCount` takes a fuel argument, one
  unit per iteration.
-/

namespace GhMetrics

/-! ## Go `int` -/

/-- Smallest Go `int` (64-bit). -/
def minInt : Int := -(2 ^ 63)

/-- Largest Go `int` (64-bit). -/
def maxInt : Int := 2 ^ 63 - 1

/-- The predicate "is a value of Go's `int`". -/
def isInt64 (x : Int) : Prop := minInt ≤ x ∧ x ≤ maxInt

instance (x : Int) : Decidable (isInt64 x) := by
  unfold isInt64; exact inferInstance

/-- Two's-complement reduction of a mathematical integer to Go's `int`. -/
def wrapInt (x : Int) : Int := (x + 2 ^ 63) % 2 ^ 64 - 2 ^ 63

/-- Go `a - b` on `int`. -/
def goSub (a b : Int) : Int := wrapInt (a - b)

/-- Go `a + b` on `int`. -/
def goAdd (a b : Int) : Int := wrapInt (a + b)

/-! ## `fmt.Sprintf`, the fragment used by the program -/

/-- Verb `%d` on an `int`: decimal digits, `-` in front of a negative value. -/
def fmtD (n : Int) : String :=
  if n < 0 then "-" ++ Nat.repr n.natAbs else Nat.repr n.natAbs

/-- Verb `%+d` on an `int`: as `%d`, with `+` in front of a non-negative value. -/
def fmtPlusD (n : Int) : String :=
  if n < 0 then "-" ++ Nat.repr n.natAbs else "+" ++ Nat.repr n.natAbs

/-- An operand of `Sprintf`: the program passes strings and `int`s only. -/
inductive Arg where
  | str (s : String)
  | int (n : Int)

/-- Interpretation of a format string over its operands.  The verbs are `%s`
on a string, `%d` and `%+d` on an `int`; every other character is copied.
`none` stands for a format outside this fragment (another verb, an operand
of the wrong kind, a missing or a surplus operand). -/
def sprintfChars : List Char → List Arg → Option (List Char)
  | [], [] => some []
  | [], _ :: _ => none
  | '%' :: 's' :: rest, Arg.str s :: args =>
      (sprintfChars rest args).map (s.data ++ ·)
  | '%' :: 'd' :: rest, Arg.int n :: args =>
      (sprintfChars rest args).map ((fmtD n).data ++ ·)
  | '%' :: '+' :: 'd' :: rest, Arg.int n :: args =>
      (sprintfChars rest args).map ((fmtPlusD n).data ++ ·)
  | '%' :: _, _ => none
  | c :: rest, args => (sprintfChars rest args).map (c :: ·)

/-- The call `fmt.Sprintf(format, args...)` on the modelled fragment. -/
def sprintf (format : String) (args : List Arg) : Option String :=
  (sprintfChars format.data args).map String.mk

/-! ## The `Metrics` record -/

/-- The struct `Metrics` of `main.go`, fields in declaration order. -/
structure Metrics where
  RepositoryName : String
  Stars : Int
  Forks : Int
  OpenIssues : Int
  Watchers : Int
  TotalIssues : Int
  TotalReleaseDownloads : Int
  LastUpdated : String
  deriving DecidableEq

/-- The zero value `Metrics{}`, also the value of `var previous Metrics`. -/
def Metrics.zero : Metrics :=
  { RepositoryName := "", Stars := 0, Forks := 0, OpenIssues := 0, Watchers := 0,
    TotalIssues := 0, TotalReleaseDownloads := 0, LastUpdated := "" }

/-- A record all of whose numeric fields are values of Go's `int`. -/
def Metrics.wellTyped (m : Metrics) : Prop :=
  isInt64 m.Stars ∧ isInt64 m.Forks ∧ isInt64 m.OpenIssues ∧ isInt64 m.Watchers ∧
    isInt64 m.TotalIssues ∧ isInt64 m.TotalReleaseDownloads

instance (m : Metrics) : Decidable m.wellTyped := by
  unfold Metrics.wellTyped; exact inferInstance

/-! ## `formatMonthlyReport` -/

/-- The local `deltas` of `formatMonthlyReport`: a `Metrics` literal that sets
the six numeric fields and leaves the two strings at their zero value. -/
def deltas (current previous : Metrics) : Metrics :=
  { RepositoryName := ""
    Stars := goSub current.Stars previous.Stars
    Forks := goSub current.Forks previous.Forks
    OpenIssues := goSub current.OpenIssues previous.OpenIssues
    Watchers := goSub current.Watchers previous.Watchers
    TotalIssues := goSub current.TotalIssues previous.TotalIssues
    TotalReleaseDownloads :=
      goSub current.TotalReleaseDownloads previous.TotalReleaseDownloads
    LastUpdated := "" }

/-- The format string of `formatMonthlyReport`, concatenated as in the source. -/
def reportFormat : String :=
  "GitHub Repository Monthly Report\n" ++
    "===================================\n" ++
    "Repository: %s\n" ++
    "Stars: %d (Delta: %+d)\n" ++
    "Forks: %d (Delta: %+d)\n" ++
    "Watchers: %d (Delta: %+d)\n" ++
    "Open Issues: %d (Delta: %+d)\n" ++
    "Total Issues: %d (Delta: %+d)\n" ++
    "Total Release Downloads: %d (Delta: %+d)\n" ++
    "Last Updated: %s\n" ++
    "===================================\n"

/-- The operand list of the `Sprintf` call of `formatMonthlyReport`. -/
def reportArgs (current previous : Metrics) : List Arg :=
  let d := deltas current previous
  [ Arg.str current.RepositoryName,
    Arg.int current.Stars, Arg.int d.Stars,
    Arg.int current.Forks, Arg.int d.Forks,
    Arg.int current.Watchers, Arg.int d.Watchers,
    Arg.int current.OpenIssues, Arg.int d.OpenIssues,
    Arg.int current.TotalIssues, Arg.int d.TotalIssues,
    Arg.int current.TotalReleaseDownloads, Arg.int d.TotalReleaseDownloads,
    Arg.str current.LastUpdated ]

/-- The function `formatMonthlyReport`.  The format string stays inside the
modelled fragment of `Sprintf`, so the default `""` is never taken. -/
def formatMonthlyReport (current previous : Metrics) : String :=
  (sprintf reportFormat (reportArgs current previous)).getD ""

/-- A metric line of the report: label, current value, signed delta. -/
def metricLine (label : String) (value delta : Int) : String :=
  label ++ ": " ++ fmtD value ++ " (Delta: " ++ fmtPlusD delta ++ ")"

/-- The separator line of the report: 35 characters `=`. -/
def separatorLine : String := String.mk (List.replicate 35 '=')

/-- The lines of the report as the specification lists them, for given
delta values. -/
def reportLines (current : Metrics) (d : Metrics) : List String :=
  [ "GitHub Repository Monthly Report",
    separatorLine,
    "Repository: " ++ current.RepositoryName,
    metricLine "Stars" current.Stars d.Stars,
    metricLine "Forks" current.Forks d.Forks,
    metricLine "Watchers" current.Watchers d.Watchers,
    metricLine "Open Issues" current.OpenIssues d.OpenIssues,
    metricLine "Total Issues" current.TotalIssues d.TotalIssues,
    metricLine "Total Release Downloads" current.TotalReleaseDownloads
      d.TotalReleaseDownloads,
    "Last Updated: " ++ current.LastUpdated,
    separatorLine ]

/-- A text made of the given lines, each ended by a newline. -/
def unlines (ls : List String) : String :=
  String.join (ls.map (· ++ "\n"))

/-- The six numeric fields of `Metrics`, in the order the report prints them. -/
inductive NumField where
  | Stars | Forks | Watchers | OpenIssues | TotalIssues | TotalReleaseDownloads
  deriving DecidableEq

/-- The value of a numeric field of a record. -/
def Metrics.num (m : Metrics) : NumField → Int
  | .Stars => m.Stars
  | .Forks => m.Forks
  | .Watchers => m.Watchers
  | .OpenIssues => m.OpenIssues
  | .TotalIssues => m.TotalIssues
  | .TotalReleaseDownloads => m.TotalReleaseDownloads

/-- The label the report prints for a numeric field. -/
def NumField.label : NumField → String
  | .Stars => "Stars"
  | .Forks => "Forks"
  | .Watchers => "Watchers"
  | .OpenIssues => "Open Issues"
  | .TotalIssues => "Total Issues"
  | .TotalReleaseDownloads => "Total Release Downloads"

/-! ## Errors and responses -/

/-- The `error` values the program can meet. -/
inductive Err where
  /-- the error of a failed `http.Get` -/
  | transport (msg : String)
  /-- the error of a failed `ioutil.ReadAll` -/
  | readBody (msg : String)
  /-- `json.SyntaxError`: the bytes are not a JSON text -/
  | invalidJSON
  /-- `json.UnmarshalTypeError`: a JSON value of kind `value` met a Go
  target of type `goType` -/
  | typeMismatch (value : String) (goType : String)
  deriving DecidableEq

/-- The outcome of `http.Get(url)` followed by `ioutil.ReadAll(resp.Body)`. -/
inductive Response (β : Type) where
  | getFailed (err : Err)
  | readFailed (err : Err)
  | ok (body : β)

/-! ## JSON as decoded into `interface{}` -/

/-- A finite `float64`, the value `mant * 2 ^ exp`.  Every number that
`encoding/json` stores into an `interface{}` is one (it rejects literals
outside the range of `float64`).  The type has every such pair, which is more
than the values of `float64`. -/
structure Float64 where
  mant : Int
  exp : Int
  deriving DecidableEq

/-- The rational number a `Float64` denotes. -/
def Float64.toRat (f : Float64) : ℚ :=
  if 0 ≤ f.exp then (f.mant : ℚ) * 2 ^ f.exp.toNat else (f.mant : ℚ) / 2 ^ (-f.exp).toNat

/-- The integer part of a `Float64`, rounding toward zero. -/
def Float64.trunc (f : Float64) : Int :=
  if 0 ≤ f.exp then f.mant * 2 ^ f.exp.toNat else Int.tdiv f.mant (2 ^ (-f.exp).toNat)

/-- The Go conversion `int(f)` of a `float64`: the fraction is discarded; when
the integer part is not an `int` the result is implementation-dependent, given
here by `outOfRange`. -/
def floatToInt (outOfRange : Float64 → Int) (f : Float64) : Int :=
  if isInt64 f.trunc then f.trunc else wrapInt (outOfRange f)

/-- The conversion of an out-of-range `float64` on amd64: the smallest `int`. -/
def amd64OutOfRange : Float64 → Int := fun _ => minInt

/-- A value that `encoding/json` stores into an `interface{}`: `nil`, `bool`,
`float64`, `string`, `[]interface{}` or `map[string]interface{}`.  A map is
the list of its entries; the entry of a key is the first pair that carries
it. -/
inductive Value where
  | null
  | bool (b : Bool)
  | number (f : Float64)
  | string (s : String)
  | array (items : List Value)
  | object (entries : List (String × Value))

/-- A decoded `map[string]interface{}`; the `nil` map is the empty list. -/
abbrev GoMap := List (String × Value)

/-- The map index expression `m[key]`, `none` when the key is absent. -/
def mapIndex (m : GoMap) (key : String) : Option Value := List.lookup key m

/-- A JSON text, parsed.  A number literal is given by the `float64` that
`strconv.ParseFloat` reads from it, or, when it is outside the range of
`float64`, by its characters.  The entries of an object are in the order of
the text. -/
inductive Json where
  | null
  | bool (b : Bool)
  | number (f : Float64)
  | bigNumber (literal : String)
  | string (s : String)
  | array (items : List Json)
  | object (entries : List (String × Json))

/-- The kind of a JSON value, as `UnmarshalTypeError.Value` names it. -/
def Json.kind : Json → String
  | .null => "null"
  | .bool _ => "bool"
  | .number _ => "number"
  | .bigNumber _ => "number"
  | .string _ => "string"
  | .array _ => "array"
  | .object _ => "object"

mutual
/-- Decoding a JSON value into an `interface{}`.  A number literal outside the
range of `float64` is a type error; the error of a text is that of the first
such literal.  (The decoder goes on after the error; its callers drop the
result.) -/
def Json.decode : Json → Except Err Value
  | .null => .ok .null
  | .bool b => .ok (.bool b)
  | .number f => .ok (.number f)
  | .bigNumber literal => .error (.typeMismatch ("number " ++ literal) "float64")
  | .string s => .ok (.string s)
  | .array items =>
    match decodeItems items with
    | .error err => .error err
    | .ok values => .ok (.array values)
  | .object entries =>
    match decodeEntries entries with
    | .error err => .error err
    | .ok m => .ok (.object m)
/-- Decoding the elements of a JSON array into a `[]interface{}`. -/
def decodeItems : List Json → Except Err (List Value)
  | [] => .ok []
  | j :: rest =>
    match j.decode with
    | .error err => .error err
    | .ok v =>
      match decodeItems rest with
      | .error err => .error err
      | .ok values => .ok (v :: values)
/-- Decoding the entries of a JSON object into a `map[string]interface{}`.  A
later entry replaces an earlier one with the same key: the decoded list has
the later entries first. -/
def decodeEntries : List (String × Json) → Except Err GoMap
  | [] => .ok []
  | (key, j) :: rest =>
    match j.decode with
    | .error err => .error err
    | .ok v =>
      match decodeEntries rest with
      | .error err => .error err
      | .ok m => .ok (m ++ [(key, v)])
end

mutual
/-- A JSON value all of whose number literals are in the range of `float64`. -/
def Json.inFloatRange : Json → Bool
  | .bigNumber _ => false
  | .array items => itemsInFloatRange items
  | .object entries => entriesInFloatRange entries
  | _ => true
/-- The elements of an array are all in the range of `float64`. -/
def itemsInFloatRange : List Json → Bool
  | [] => true
  | j :: rest => j.inFloatRange && itemsInFloatRange rest
/-- The values of the entries of an object are all in the range of `float64`. -/
def entriesInFloatRange : List (String × Json) → Bool
  | [] => true
  | (_, j) :: rest => j.inFloatRange && entriesInFloatRange rest
end

/-- A decoding that returned no error. -/
def decodes {α : Type} : Except Err α → Bool
  | .ok _ => true
  | .error _ => false

/-- The bytes of a response body, as `json.Unmarshal` into an untyped target
reads them. -/
inductive Body where
  /-- bytes that are not a JSON text -/
  | invalid
  /-- a JSON text -/
  | json (j : Json)

/-- Decoding one JSON value into a `map[string]interface{}`: an object gives
its decoded map, `null` gives the `nil` map, every other kind is a type
error. -/
def asMap : Json → Except Err GoMap
  | .object entries => decodeEntries entries
  | .null => .ok []
  | j => .error (.typeMismatch j.kind "map[string]interface {}")

/-- Decoding the elements of a JSON array into maps; the error reported is
that of the first element that does not decode as one. -/
def decodeMaps : List Json → Except Err (List GoMap)
  | [] => .ok []
  | j :: rest =>
    match asMap j with
    | .error err => .error err
    | .ok m =>
      match decodeMaps rest with
      | .error err => .error err
      | .ok ms => .ok (m :: ms)

/-- The call `json.Unmarshal(data, &xs)` with `xs` a
`[]map[string]interface{}`.  An object met where the slice is expected is
skipped without a look at its contents. -/
def unmarshalMaps : Body → Except Err (List GoMap)
  | .invalid => .error .invalidJSON
  | .json .null => .ok []
  | .json (.array items) => decodeMaps items
  | .json j => .error (.typeMismatch j.kind "[]map[string]interface {}")

/-- The call `json.Unmarshal(data, &m)` with `m` a `map[string]interface{}`. -/
def unmarshalMap : Body → Except Err GoMap
  | .invalid => .error .invalidJSON
  | .json j => asMap j

/-! ## `getAllIssuesCount` -/

/-- The inner `for ... range issues` loop: an item without the key
`"pull_request"` adds one to the total. -/
def countIssues (totalIssues : Int) (issues : List GoMap) : Int :=
  issues.foldl
    (fun total issue => if (mapIndex issue "pull_request").isSome then total else total + 1)
    totalIssues

/-- The result of `getAllIssuesCount`: the two returned values and, as a
record of the run, the page numbers requested, in order. -/
structure IssuesResult where
  count : Int
  err : Option Err
  requests : List Nat
  deriving DecidableEq

/-- The `for` loop of `getAllIssuesCount`, one iteration per unit of fuel.
`issues page` is the outcome of the request for that page; `none` means the
fuel ran out before the loop ended. -/
def issuesLoop (issues : Nat → Response Body) :
    Nat → Nat → Int → List Nat → Option IssuesResult
  | 0, _, _, _ => none
  | fuel + 1, page, totalIssues, requests =>
    match issues page with
    | .getFailed err => some ⟨0, some err, requests ++ [page]⟩
    | .readFailed err => some ⟨0, some err, requests ++ [page]⟩
    | .ok issuesData =>
      match unmarshalMaps issuesData with
      | .error err => some ⟨0, some err, requests ++ [page]⟩
      | .ok items =>
        if items.length = 0 then
          some ⟨totalIssues, none, requests ++ [page]⟩
        else
          issuesLoop issues fuel (page + 1) (countIssues totalIssues items)
            (requests ++ [page])

/-- The function `getAllIssuesCount`: the loop started with `totalIssues = 0`
and `page = 1`. -/
def getAllIssuesCount (issues : Nat → Response Body) (fuel : Nat) : Option IssuesResult :=
  issuesLoop issues fuel 1 0 []

/-- What the request for a page decodes to, `none` when the request, the read
or the decoding fails. -/
def decodedPage (issues : Nat → Response Body) (page : Nat) : Option (List GoMap) :=
  match issues page with
  | .ok issuesData =>
    match unmarshalMaps issuesData with
    | .ok items => some items
    | .error _ => none
  | _ => none

/-- The error of a page whose request, read or decoding fails. -/
def pageError (issues : Nat → Response Body) (page : Nat) : Option Err :=
  match issues page with
  | .getFailed err => some err
  | .readFailed err => some err
  | .ok issuesData =>
    match unmarshalMaps issuesData with
    | .ok _ => none
    | .error err => some err

/-- The items of a page that are issues: those without a `"pull_request"` key. -/
def issuesOnly (items : List GoMap) : List GoMap :=
  items.filter (fun issue => !(mapIndex issue "pull_request").isSome)

/-- The pages that come before the first empty page. -/
def pagesBeforeEmpty (pages : List (List GoMap)) : List (List GoMap) :=
  pages.takeWhile (fun items => !items.isEmpty)

/-- The items a page decodes to, none when it fails. -/
def pageItems (issues : Nat → Response Body) (page : Nat) : List GoMap :=
  (decodedPage issues page).getD []

/-- A page that is fetched and decoded and has at least one item. -/
def isNonEmptyPage (issues : Nat → Response Body) (page : Nat) : Bool :=
  match decodedPage issues page with
  | some (_ :: _) => true
  | _ => false

/-- A page that is fetched and decoded and has no item. -/
def isEmptyPage (issues : Nat → Response Body) (page : Nat) : Bool :=
  match decodedPage issues page with
  | some [] => true
  | _ => false

/-- The number of issues (items without a `"pull_request"` key) on the `n`
pages that start at `page`. -/
def issuesOnPages (issues : Nat → Response Body) (page n : Nat) : Int :=
  ((List.range' page n).map
    (fun j => ((issuesOnly (pageItems issues j)).length : Int))).sum


/-! ## The release downloads of `getGitHubMetrics` -/

/-- The body of the inner loop over the assets of a release. -/
def addAsset (outOfRange : Float64 → Int) (totalDownloads : Int) (asset : Value) : Int :=
  match asset with
  | .object assetMap =>
    match mapIndex assetMap "download_count" with
    | some (.number count) => goAdd totalDownloads (floatToInt outOfRange count)
    | _ => totalDownloads
  | _ => totalDownloads

/-- The body of the outer loop over the releases. -/
def addRelease (outOfRange : Float64 → Int) (totalDownloads : Int) (release : GoMap) : Int :=
  match mapIndex release "assets" with
  | some (.array assets) => assets.foldl (addAsset outOfRange) totalDownloads
  | _ => totalDownloads

/-- The value of `totalDownloads` after the two nested loops. -/
def totalDownloads (outOfRange : Float64 → Int) (releases : List GoMap) : Int :=
  releases.foldl (addRelease outOfRange) 0

/-- The decoding of the releases body: a body that does not decode as a
sequence of maps but decodes as a single map gives the empty list, any other
failure is returned with the error of the first attempt. -/
def decodeReleases (releasesData : Body) : Except Err (List GoMap) :=
  match unmarshalMaps releasesData with
  | .ok releases => .ok releases
  | .error err =>
    match unmarshalMap releasesData with
    | .ok _ => .ok []
    | .error _ => .error err

/-- The `download_count` of an asset that is counted: the asset is an object
and the field is numeric. -/
def countedOfAsset : Value → Option Float64
  | .object assetMap =>
    match mapIndex assetMap "download_count" with
    | some (.number count) => some count
    | _ => none
  | _ => none

/-- The counted `download_count`s of a release: those of the elements of its
`"assets"` when that field is a sequence, none otherwise. -/
def countedOfRelease (release : GoMap) : List Float64 :=
  match mapIndex release "assets" with
  | some (.array assets) => assets.filterMap countedOfAsset
  | _ => []

/-- The counted `download_count`s of a list of releases, in order. -/
def countedDownloads (releases : List GoMap) : List Float64 :=
  (releases.map countedOfRelease).flatten

/-! ## `Metrics` as JSON -/

/-- A JSON value as the decoder reads it when the target is a struct field of
type `string` or `int`. -/
inductive FieldValue where
  | null
  | string (s : String)
  /-- a number literal made of an optional `-` and digits -/
  | intLit (n : Int)
  /-- a number literal with a fraction or an exponent -/
  | realLit
  | bool
  | array
  | object
  deriving DecidableEq

/-- The kind of a field value, as `UnmarshalTypeError.Value` names it. -/
def FieldValue.kind : FieldValue → String
  | .null => "null"
  | .string _ => "string"
  | .intLit _ => "number"
  | .realLit => "number"
  | .bool => "bool"
  | .array => "array"
  | .object => "object"

/-- The bytes passed to `json.Unmarshal(data, &m)` with `m` a `Metrics`, and
the bytes `json.Marshal(m)` returns. -/
inductive StructBody where
  /-- bytes that are not a JSON text -/
  | invalid
  /-- the JSON text `null` -/
  | null
  /-- a JSON object, its entries in the order of the text -/
  | object (entries : List (String × FieldValue))
  /-- a JSON text of another kind (array, string, number, bool) -/
  | other (kind : String)
  deriving DecidableEq

/-- The fields of `Metrics`, in declaration order. -/
inductive Field where
  | RepositoryName | Stars | Forks | OpenIssues | Watchers
  | TotalIssues | TotalReleaseDownloads | LastUpdated
  deriving DecidableEq

/-- The JSON name of a field: its `json` tag, or the Go name of the field when
it has no tag. -/
def Field.key : Field → String
  | .RepositoryName => "full_name"
  | .Stars => "stargazers_count"
  | .Forks => "forks_count"
  | .OpenIssues => "open_issues_count"
  | .Watchers => "subscribers_count"
  | .TotalIssues => "TotalIssues"
  | .TotalReleaseDownloads => "TotalReleaseDownloads"
  | .LastUpdated => "updated_at"

/-- All fields, in declaration order. -/
def Field.all : List Field :=
  [.RepositoryName, .Stars, .Forks, .OpenIssues, .Watchers,
    .TotalIssues, .TotalReleaseDownloads, .LastUpdated]

/-- The field an object key is stored into: the field whose JSON name is the
key, else the first field whose name equals it under the decoder's case
folding `fold`, else none (the key is skipped). -/
def findField (fold : String → String) (key : String) : Option Field :=
  match Field.all.find? (fun f => f.key == key) with
  | some f => some f
  | none => Field.all.find? (fun f => fold f.key == fold key)

/-- Storing a JSON value into a `string` field: a string is stored, `null`
leaves the field, any other kind leaves it and is a type error. -/
def storeString (v : FieldValue) (old : String) : String × Option Err :=
  match v with
  | .string s => (s, none)
  | .null => (old, none)
  | v => (old, some (.typeMismatch v.kind "string"))

/-- Storing a JSON value into an `int` field: an integer literal in the range
of `int` is stored, `null` leaves the field, anything else leaves it and is a
type error. -/
def storeInt (v : FieldValue) (old : Int) : Int × Option Err :=
  match v with
  | .intLit n => if isInt64 n then (n, none) else (old, some (.typeMismatch "number" "int"))
  | .null => (old, none)
  | v => (old, some (.typeMismatch v.kind "int"))

/-- Storing a JSON value into a field of the record. -/
def setField (f : Field) (v : FieldValue) (m : Metrics) : Metrics × Option Err :=
  match f with
  | .RepositoryName =>
    let r := storeString v m.RepositoryName
    ({ m with RepositoryName := r.1 }, r.2)
  | .Stars =>
    let r := storeInt v m.Stars
    ({ m with Stars := r.1 }, r.2)
  | .Forks =>
    let r := storeInt v m.Forks
    ({ m with Forks := r.1 }, r.2)
  | .OpenIssues =>
    let r := storeInt v m.OpenIssues
    ({ m with OpenIssues := r.1 }, r.2)
  | .Watchers =>
    let r := storeInt v m.Watchers
    ({ m with Watchers := r.1 }, r.2)
  | .TotalIssues =>
    let r := storeInt v m.TotalIssues
    ({ m with TotalIssues := r.1 }, r.2)
  | .TotalReleaseDownloads =>
    let r := storeInt v m.TotalReleaseDownloads
    ({ m with TotalReleaseDownloads := r.1 }, r.2)
  | .LastUpdated =>
    let r := storeString v m.LastUpdated
    ({ m with LastUpdated := r.1 }, r.2)

/-- Decoding the entries of a JSON object into the record, in order; the
decoder goes on after a type error and reports the first one. -/
def decodeFields (fold : String → String) :
    List (String × FieldValue) → Metrics → Option Err → Metrics × Option Err
  | [], m, err => (m, err)
  | (key, v) :: rest, m, err =>
    match findField fold key with
    | none => decodeFields fold rest m err
    | some f =>
      let r := setField f v m
      decodeFields fold rest r.1 (err <|> r.2)

/-- The call `json.Unmarshal(data, &m)` with `m` a `Metrics`: the record after
the call and the error returned. -/
def unmarshalMetrics (fold : String → String) (data : StructBody) (m : Metrics) :
    Metrics × Option Err :=
  match data with
  | .invalid => (m, some .invalidJSON)
  | .null => (m, none)
  | .object entries => decodeFields fold entries m none
  | .other kind => (m, some (.typeMismatch kind "main.Metrics"))

/-- The call `json.Marshal(m)` with `m` a `Metrics`: an object with one entry
per field, in declaration order; it never fails. -/
def marshalMetrics (m : Metrics) : StructBody :=
  .object
    [ (Field.RepositoryName.key, .string m.RepositoryName),
      (Field.Stars.key, .intLit m.Stars),
      (Field.Forks.key, .intLit m.Forks),
      (Field.OpenIssues.key, .intLit m.OpenIssues),
      (Field.Watchers.key, .intLit m.Watchers),
      (Field.TotalIssues.key, .intLit m.TotalIssues),
      (Field.TotalReleaseDownloads.key, .intLit m.TotalReleaseDownloads),
      (Field.LastUpdated.key, .string m.LastUpdated) ]

/-- The loading of the previous snapshot in `main`: `file` is `none` when no
path was given or the file could not be opened; the read and decoding errors
are dropped. -/
def loadPrevious (fold : String → String) (file : Option StructBody) : Metrics :=
  match file with
  | none => Metrics.zero
  | some data => (unmarshalMetrics fold data Metrics.zero).1

/-! ## `getGitHubMetrics` -/

/-- The three resources the program reads. -/
structure Server where
  /-- The resource `GET {base}`. -/
  repo : Response StructBody
  /-- The resource `GET {base}/releases`. -/
  releases : Response Body
  /-- The resource `GET {base}/issues?state=all&per_page=100&page={n}`. -/
  issues : Nat → Response Body

/-- The two values `getGitHubMetrics` returns. -/
structure FetchResult where
  metrics : Metrics
  err : Option Err
  deriving DecidableEq

/-- The function `getGitHubMetrics`; `fuel` bounds the page loop of
`getAllIssuesCount`, `none` means it ran out. -/
def getGitHubMetrics (outOfRange : Float64 → Int) (fold : String → String)
    (server : Server) (fuel : Nat) : Option FetchResult :=
  match server.repo with
  | .getFailed err => some ⟨Metrics.zero, some err⟩
  | .readFailed err => some ⟨Metrics.zero, some err⟩
  | .ok repoData =>
    match unmarshalMetrics fold repoData Metrics.zero with
    | (_, some err) => some ⟨Metrics.zero, some err⟩
    | (repoMetrics, none) =>
      match server.releases with
      | .getFailed err => some ⟨Metrics.zero, some err⟩
      | .readFailed err => some ⟨Metrics.zero, some err⟩
      | .ok releasesData =>
        match decodeReleases releasesData with
        | .error err => some ⟨Metrics.zero, some err⟩
        | .ok releases =>
          let withDownloads : Metrics :=
            { repoMetrics with TotalReleaseDownloads := totalDownloads outOfRange releases }
          match getAllIssuesCount server.issues fuel with
          | none => none
          | some r =>
            match r.err with
            | some err => some ⟨Metrics.zero, some err⟩
            | none => some ⟨{ withDownloads with TotalIssues := r.count }, none⟩

/-! ## Concrete inputs -/

/-- A record whose star count is the smallest `int`. -/
def minStars : Metrics :=
  { Metrics.zero with RepositoryName := "acme/widget", Stars := minInt }

/-- A record with one star. -/
def oneStar : Metrics :=
  { Metrics.zero with RepositoryName := "acme/widget", Stars := 1 }

/-- A current record of the repository `acme/widget`, with 15 stars. -/
def sampleCurrent : Metrics :=
  { RepositoryName := "acme/widget", Stars := 15, Forks := 7, OpenIssues := 4,
    Watchers := 3, TotalIssues := 20, TotalReleaseDownloads := 8,
    LastUpdated := "2024-05-01T00:00:00Z" }

/-- A previous record of the repository `acme/widget`, with 10 stars. -/
def samplePrevious : Metrics :=
  { RepositoryName := "acme/widget", Stars := 10, Forks := 9, OpenIssues := 4,
    Watchers := 1, TotalIssues := 18, TotalReleaseDownloads := 0,
    LastUpdated := "2024-04-01T00:00:00Z" }


/-- An item of an issues page that is an issue: it has no `"pull_request"` key. -/
def plainIssue : Json :=
  .object [("number", .number ⟨1, 0⟩), ("title", .string "crash on start")]

/-- An item of an issues page that is a pull request: it carries the key
`"pull_request"`, here with the given value. -/
def pullRequest (marker : Json) : Json :=
  .object [("number", .number ⟨2, 0⟩), ("pull_request", marker)]

/-- A page source with issues and pull requests mixed on two pages, the third
page empty. -/
def mixedIssues : Nat → Response Body
  | 1 => .ok (.json (.array
      [plainIssue, pullRequest .null, plainIssue, pullRequest (.object [])]))
  | 2 => .ok (.json (.array [pullRequest (.bool false), plainIssue]))
  | 3 => .ok (.json (.array []))
  | _ => .getFailed (.transport "connection refused")

/-- The pages of `mixedIssues`, decoded. -/
def mixedPages : List (List GoMap) :=
  [ [ [("title", .string "crash on start"), ("number", .number ⟨1, 0⟩)],
      [("pull_request", .null), ("number", .number ⟨2, 0⟩)],
      [("title", .string "crash on start"), ("number", .number ⟨1, 0⟩)],
      [("pull_request", .object []), ("number", .number ⟨2, 0⟩)] ],
    [ [("pull_request", .bool false), ("number", .number ⟨2, 0⟩)],
      [("title", .string "crash on start"), ("number", .number ⟨1, 0⟩)] ],
    [] ]

/-- A page source with pages of 100, 100, 37 and 0 items. -/
def sizedIssues : Nat → Response Body
  | 1 => .ok (.json (.array (List.replicate 100 plainIssue)))
  | 2 => .ok (.json (.array (List.replicate 100 plainIssue)))
  | 3 => .ok (.json (.array (List.replicate 37 plainIssue)))
  | 4 => .ok (.json (.array []))
  | _ => .getFailed (.transport "connection refused")

/-- A page source whose second page is not a JSON text. -/
def failingIssues : Nat → Response Body
  | 1 => .ok (.json (.array [plainIssue, plainIssue]))
  | 2 => .ok .invalid
  | _ => .ok (.json (.array []))


/-- An asset object with the given `download_count`. -/
def assetWith (count : Float64) : Value :=
  .object [("name", .string "widget.tar.gz"), ("download_count", .number count)]

/-- The releases
`[{assets:[{download_count:5},{download_count:3}]}, {assets:[]}, {}]`. -/
def exampleReleases : List GoMap :=
  [ [("assets", .array
      [ .object [("download_count", .number ⟨5, 0⟩)],
        .object [("download_count", .number ⟨3, 0⟩)] ])],
    [("assets", .array [])],
    [] ]

/-- One release with two assets, each with `download_count` 0.5. -/
def halfReleases : List GoMap :=
  [ [("assets", .array [assetWith ⟨1, -1⟩, assetWith ⟨1, -1⟩])] ]

/-- One release with two assets, each with `download_count` `2^62`. -/
def hugeReleases : List GoMap :=
  [ [("assets", .array [assetWith ⟨1, 62⟩, assetWith ⟨1, 62⟩])] ]

/-- Releases with every shape that is skipped: no `"assets"`, `"assets"` that
is not a sequence, an asset that is not an object, an asset without
`"download_count"`, a `"download_count"` that is not a number; one asset
counts, with 7 downloads. -/
def malformedReleases : List GoMap :=
  [ [("tag_name", .string "v1")],
    [("assets", .string "none")],
    [("assets", .null)],
    [("assets", .array
      [ .string "widget.tar.gz",
        .null,
        .object [("name", .string "widget.zip")],
        .object [("download_count", .string "12")],
        .object [("download_count", .null)],
        assetWith ⟨7, 0⟩ ])] ]

/-- An asset object of a releases body, with the given `download_count`. -/
def assetJson (count : Float64) : Json :=
  .object [("name", .string "widget.tar.gz"), ("download_count", .number count)]

/-- The case folding used in the concrete runs: ASCII upper case. -/
def upperFold : String → String := fun s => String.mk (s.data.map Char.toUpper)

/-- A repository resource of `acme/widget`. -/
def repoBody : StructBody :=
  .object
    [ ("id", .intLit 1296269),
      ("full_name", .string "acme/widget"),
      ("private", .bool),
      ("owner", .object),
      ("stargazers_count", .intLit 15),
      ("forks_count", .intLit 7),
      ("open_issues_count", .intLit 4),
      ("subscribers_count", .intLit 3),
      ("updated_at", .string "2024-05-01T00:00:00Z") ]

/-- A server whose releases carry a negative `download_count`. -/
def negativeServer : Server :=
  { repo := .ok repoBody
    releases := .ok (.json (.array [.object [("assets", .array [assetJson ⟨-5, 0⟩])]]))
    issues := mixedIssues }

/-- A server whose releases resource is the object `{"message":"Not Found"}`. -/
def notFoundServer : Server :=
  { repo := .ok repoBody
    releases := .ok (.json (.object [("message", .string "Not Found")]))
    issues := mixedIssues }

/-- A server whose releases resource is a JSON string. -/
def stringReleasesServer : Server :=
  { repo := .ok repoBody
    releases := .ok (.json (.string "Not Found"))
    issues := mixedIssues }

/-- A server whose releases resource is the object `{"message":1e400}`; the
number literal is outside the range of `float64`. -/
def bigNumberServer : Server :=
  { repo := .ok repoBody
    releases := .ok (.json (.object [("message", .bigNumber "1e400")]))
    issues := mixedIssues }

/-- A server whose releases resource is a sequence of two releases. -/
def releasesServer : Server :=
  { repo := .ok repoBody
    releases := .ok (.json (.array
      [ .object [("assets", .array [assetJson ⟨5, 0⟩, assetJson ⟨3, 0⟩])],
        .object [("tag_name", .string "v0")] ]))
    issues := mixedIssues }


/-! ## Theorems -/

theorem sprintfChars_lit (l rest : List Char) (args : List Arg)
    (h : l.all (fun c => c != '%') = true) :
    sprintfChars (l ++ rest) args = (sprintfChars rest args).map (l ++ ·) := by
  induction l with
  | nil => simp
  | cons c l ih =>
    simp only [List.all_cons, Bool.and_eq_true, bne_iff_ne, ne_eq] at h
    have hc : c ≠ '%' := h.1
    have := ih h.2
    rw [List.cons_append, sprintfChars]
    · rw [this]; cases sprintfChars rest args <;> simp
    all_goals (intros; contradiction)

set_option maxRecDepth 100000 in
theorem reportFormat_data :
    reportFormat.data =
      "GitHub Repository Monthly Report\n===================================\nRepository: ".data ++
      ('%' :: 's' :: ("\nStars: ".data ++
      ('%' :: 'd' :: (" (Delta: ".data ++
      ('%' :: '+' :: 'd' :: (")\nForks: ".data ++
      ('%' :: 'd' :: (" (Delta: ".data ++
      ('%' :: '+' :: 'd' :: (")\nWatchers: ".data ++
      ('%' :: 'd' :: (" (Delta: ".data ++
      ('%' :: '+' :: 'd' :: (")\nOpen Issues: ".data ++
      ('%' :: 'd' :: (" (Delta: ".data ++
      ('%' :: '+' :: 'd' :: (")\nTotal Issues: ".data ++
      ('%' :: 'd' :: (" (Delta: ".data ++
      ('%' :: '+' :: 'd' :: (")\nTotal Release Downloads: ".data ++
      ('%' :: 'd' :: (" (Delta: ".data ++
      ('%' :: '+' :: 'd' :: (")\nLast Updated: ".data ++
      ('%' :: 's' :: ("\n===================================\n".data ++ [])))))))))))))))))))))))))))) := by
  decide

theorem sprintfChars_s (l rest : List Char) (s : String) (args : List Arg)
    (h : l.all (fun c => c != '%') = true) :
    sprintfChars (l ++ '%' :: 's' :: rest) (Arg.str s :: args) =
      (sprintfChars rest args).map (fun x => l ++ (s.data ++ x)) := by
  rw [sprintfChars_lit _ _ _ h, sprintfChars]
  cases sprintfChars rest args <;> simp

theorem sprintfChars_d (l rest : List Char) (n : Int) (args : List Arg)
    (h : l.all (fun c => c != '%') = true) :
    sprintfChars (l ++ '%' :: 'd' :: rest) (Arg.int n :: args) =
      (sprintfChars rest args).map (fun x => l ++ ((fmtD n).data ++ x)) := by
  rw [sprintfChars_lit _ _ _ h, sprintfChars]
  cases sprintfChars rest args <;> simp

theorem sprintfChars_plus_d (l rest : List Char) (n : Int) (args : List Arg)
    (h : l.all (fun c => c != '%') = true) :
    sprintfChars (l ++ '%' :: '+' :: 'd' :: rest) (Arg.int n :: args) =
      (sprintfChars rest args).map (fun x => l ++ ((fmtPlusD n).data ++ x)) := by
  rw [sprintfChars_lit _ _ _ h, sprintfChars]
  cases sprintfChars rest args <;> simp

theorem sprintfChars_end (l : List Char) (h : l.all (fun c => c != '%') = true) :
    sprintfChars (l ++ []) [] = some l := by
  rw [sprintfChars_lit _ _ _ h, sprintfChars]; simp

set_option maxRecDepth 100000 in
theorem sprintf_report (c p : Metrics) :
    sprintf reportFormat (reportArgs c p) = some (unlines (reportLines c (deltas c p))) := by
  unfold sprintf reportArgs
  rw [reportFormat_data]
  rw [sprintfChars_s _ _ _ _ (by decide),
    sprintfChars_d _ _ _ _ (by decide), sprintfChars_plus_d _ _ _ _ (by decide),
    sprintfChars_d _ _ _ _ (by decide), sprintfChars_plus_d _ _ _ _ (by decide),
    sprintfChars_d _ _ _ _ (by decide), sprintfChars_plus_d _ _ _ _ (by decide),
    sprintfChars_d _ _ _ _ (by decide), sprintfChars_plus_d _ _ _ _ (by decide),
    sprintfChars_d _ _ _ _ (by decide), sprintfChars_plus_d _ _ _ _ (by decide),
    sprintfChars_d _ _ _ _ (by decide), sprintfChars_plus_d _ _ _ _ (by decide),
    sprintfChars_s _ _ _ _ (by decide), sprintfChars_end _ (by decide)]
  simp only [Option.map_some']
  congr 1
  apply String.ext
  simp only [unlines, reportLines, metricLine, separatorLine, String.data_join,
    List.map_cons, List.map_nil, String.data_append, List.flatten_cons, List.flatten_nil,
    List.append_assoc, List.append_nil]
  rfl

theorem wrapInt_of_isInt64 {x : Int} (h : isInt64 x) : wrapInt x = x := by
  unfold isInt64 minInt maxInt at h
  unfold wrapInt
  omega

theorem isInt64_wrapInt (x : Int) : isInt64 (wrapInt x) := by
  unfold isInt64 minInt maxInt wrapInt
  omega

theorem isInt64_sub_of_nonneg {a b : Int} (ha : isInt64 a) (hb : isInt64 b)
    (ha0 : 0 ≤ a) (hb0 : 0 ≤ b) : isInt64 (a - b) := by
  unfold isInt64 minInt maxInt at *
  omega

theorem formatMonthlyReport_eq (c p : Metrics) :
    formatMonthlyReport c p = unlines (reportLines c (deltas c p)) := by
  unfold formatMonthlyReport
  rw [sprintf_report]
  rfl

theorem deltas_num (c p : Metrics) (f : NumField) :
    (deltas c p).num f = goSub (c.num f) (p.num f) := by
  cases f <;> rfl

/-! ### The report formatter -/

/-- C1, counterexample: both records are well typed.  With one star now and
the smallest `int` in the previous snapshot the integer difference is
`2^63 + 1`, but the delta that `formatMonthlyReport` computes and prints is
`-(2^63) + 1`.  With the smallest `int` now and one star before, the current
value is the smaller one, but the delta computed and printed is the largest
`int`, a positive number. -/
theorem delta_overflow_counterexample :
    oneStar.wellTyped ∧ minStars.wellTyped ∧
    oneStar.Stars - minStars.Stars = 9223372036854775809 ∧
    (deltas oneStar minStars).Stars = -9223372036854775807 ∧
    "Stars: 1 (Delta: -9223372036854775807)" ∈
      reportLines oneStar (deltas oneStar minStars) ∧
    formatMonthlyReport oneStar minStars =
      unlines (reportLines oneStar (deltas oneStar minStars)) ∧
    minStars.Stars < oneStar.Stars ∧
    minStars.Stars - oneStar.Stars = -9223372036854775809 ∧
    (deltas minStars oneStar).Stars = 9223372036854775807 ∧
    "Stars: -9223372036854775808 (Delta: +9223372036854775807)" ∈
      reportLines minStars (deltas minStars oneStar) ∧
    formatMonthlyReport minStars oneStar =
      unlines (reportLines minStars (deltas minStars oneStar)) := by
  refine ⟨by decide, by decide, by decide, by decide, by decide,
    formatMonthlyReport_eq _ _, by decide, by decide, by decide, by decide,
    formatMonthlyReport_eq _ _⟩

/-- C1 (amended): for every pair of records the delta of each of the six
numeric fields is `current.field - previous.field` in 64-bit two's-complement
arithmetic, and the report prints that value; it is exactly the integer
difference, with no clamping, whenever the difference is an `int`, which is
the case whenever both values are non-negative `int`s, and then a smaller
current value gives a negative delta. -/
theorem delta_is_wrapped_difference (c p : Metrics) :
    (∀ f : NumField, (deltas c p).num f = wrapInt (c.num f - p.num f)) ∧
    (∀ f : NumField, isInt64 (c.num f - p.num f) →
      (deltas c p).num f = c.num f - p.num f ∧
      (c.num f < p.num f → (deltas c p).num f < 0)) ∧
    (∀ f : NumField, isInt64 (c.num f) → isInt64 (p.num f) → 0 ≤ c.num f → 0 ≤ p.num f →
      (deltas c p).num f = c.num f - p.num f) ∧
    formatMonthlyReport c p = unlines (reportLines c (deltas c p)) ∧
    (∀ f : NumField,
      metricLine f.label (c.num f) (wrapInt (c.num f - p.num f)) ∈
        reportLines c (deltas c p)) := by
  have hw : ∀ f : NumField, (deltas c p).num f = wrapInt (c.num f - p.num f) :=
    fun f => deltas_num c p f
  have hex : ∀ f : NumField, isInt64 (c.num f - p.num f) →
      (deltas c p).num f = c.num f - p.num f :=
    fun f h => by rw [hw f, wrapInt_of_isInt64 h]
  refine ⟨hw, ?_, ?_, formatMonthlyReport_eq c p, ?_⟩
  · intro f h
    refine ⟨hex f h, fun hlt => ?_⟩
    rw [hex f h]; omega
  · intro f hc hp hc0 hp0
    exact hex f (isInt64_sub_of_nonneg hc hp hc0 hp0)
  · intro f
    cases f <;> simp [reportLines, NumField.label, Metrics.num, deltas, goSub]

/-- C1, witness: the sample records, 15 and 10 stars, 7 and 9 forks. -/
theorem delta_is_wrapped_difference_witness :
    isInt64 (sampleCurrent.num .Stars - samplePrevious.num .Stars) ∧
    (deltas sampleCurrent samplePrevious).num .Stars = 5 ∧
    sampleCurrent.num .Forks < samplePrevious.num .Forks ∧
    (deltas sampleCurrent samplePrevious).num .Forks < 0 :=
  ⟨by decide,
    ((delta_is_wrapped_difference sampleCurrent samplePrevious).2.1 .Stars (by decide)).1,
    by decide,
    ((delta_is_wrapped_difference sampleCurrent samplePrevious).2.1 .Forks (by decide)).2
      (by decide)⟩

/-- C2: the report is the title line, a separator line of `=`, the line
`Repository: <name>`, one line `<label>: <current> (Delta: <signed delta>)`
per metric in the order Stars, Forks, Watchers, Open Issues, Total Issues,
Total Release Downloads, the line `Last Updated: <last-updated>` and a closing
separator line, each ended by a newline; the delta always carries a sign; with
15 and 10 stars the report contains the line `Stars: 15 (Delta: +5)`. -/
theorem report_layout (c p : Metrics) :
    formatMonthlyReport c p = unlines
      [ "GitHub Repository Monthly Report",
        "===================================",
        "Repository: " ++ c.RepositoryName,
        "Stars: " ++ fmtD c.Stars ++ " (Delta: " ++ fmtPlusD (deltas c p).Stars ++ ")",
        "Forks: " ++ fmtD c.Forks ++ " (Delta: " ++ fmtPlusD (deltas c p).Forks ++ ")",
        "Watchers: " ++ fmtD c.Watchers ++ " (Delta: " ++
          fmtPlusD (deltas c p).Watchers ++ ")",
        "Open Issues: " ++ fmtD c.OpenIssues ++ " (Delta: " ++
          fmtPlusD (deltas c p).OpenIssues ++ ")",
        "Total Issues: " ++ fmtD c.TotalIssues ++ " (Delta: " ++
          fmtPlusD (deltas c p).TotalIssues ++ ")",
        "Total Release Downloads: " ++ fmtD c.TotalReleaseDownloads ++ " (Delta: " ++
          fmtPlusD (deltas c p).TotalReleaseDownloads ++ ")",
        "Last Updated: " ++ c.LastUpdated,
        "===================================" ] ∧
    (∀ n : Int, fmtPlusD n = (if n < 0 then "-" else "+") ++ Nat.repr n.natAbs) ∧
    (c.Stars = 15 → p.Stars = 10 →
      ∃ before after : List String,
        formatMonthlyReport c p =
          unlines (before ++ ["Stars: 15 (Delta: +5)"] ++ after)) := by
  have hlayout := formatMonthlyReport_eq c p
  refine ⟨?_, ?_, ?_⟩
  · rw [hlayout]
    apply congrArg
    simp only [reportLines, metricLine, separatorLine, String.append_assoc]
    rfl
  · intro n
    unfold fmtPlusD
    split <;> rfl
  · intro hc hp
    refine ⟨(reportLines c (deltas c p)).take 3, (reportLines c (deltas c p)).drop 4, ?_⟩
    rw [hlayout]
    apply congrArg
    have hd : (deltas c p).Stars = 5 := by
      simp only [deltas, goSub, hc, hp]; decide
    have hline : metricLine "Stars" c.Stars (deltas c p).Stars = "Stars: 15 (Delta: +5)" := by
      rw [hd, hc]; decide
    simp only [reportLines, hline, List.take, List.drop, List.cons_append, List.nil_append]

/-- C2, witness: the sample records have 15 and 10 stars. -/
theorem report_layout_witness :
    sampleCurrent.Stars = 15 ∧ samplePrevious.Stars = 10 ∧
    ∃ before after : List String,
      formatMonthlyReport sampleCurrent samplePrevious =
        unlines (before ++ ["Stars: 15 (Delta: +5)"] ++ after) :=
  ⟨rfl, rfl, (report_layout sampleCurrent samplePrevious).2.2 rfl rfl⟩

/-- C3: when the previous record is the zero value, every delta equals the
current value and the report shows it so; the sign is printed by the same verb
for the six metrics: a positive delta has a leading `+`, a zero delta is
`+0`.  The previous record is the zero value when no snapshot is opened or
its bytes are not a JSON text. -/
theorem report_without_previous (c : Metrics) (h : c.wellTyped) :
    (∀ f : NumField, (deltas c Metrics.zero).num f = c.num f) ∧
    formatMonthlyReport c Metrics.zero = unlines
      [ "GitHub Repository Monthly Report",
        separatorLine,
        "Repository: " ++ c.RepositoryName,
        metricLine "Stars" c.Stars c.Stars,
        metricLine "Forks" c.Forks c.Forks,
        metricLine "Watchers" c.Watchers c.Watchers,
        metricLine "Open Issues" c.OpenIssues c.OpenIssues,
        metricLine "Total Issues" c.TotalIssues c.TotalIssues,
        metricLine "Total Release Downloads" c.TotalReleaseDownloads c.TotalReleaseDownloads,
        "Last Updated: " ++ c.LastUpdated,
        separatorLine ] ∧
    (∀ label : String, ∀ value delta : Int, 0 < delta →
      metricLine label value delta =
        label ++ ": " ++ fmtD value ++ " (Delta: +" ++ Nat.repr delta.toNat ++ ")") ∧
    (∀ label : String, ∀ value : Int,
      metricLine label value 0 = label ++ ": " ++ fmtD value ++ " (Delta: +0)") ∧
    (∀ fold : String → String,
      loadPrevious fold none = Metrics.zero ∧
      loadPrevious fold (some .invalid) = Metrics.zero) := by
  have hnum : ∀ f : NumField, (deltas c Metrics.zero).num f = c.num f := by
    intro f
    rw [deltas_num]
    obtain ⟨h1, h2, h3, h4, h5, h6⟩ := h
    cases f <;> simp only [goSub, Metrics.num, Metrics.zero, sub_zero] <;>
      exact wrapInt_of_isInt64 (by assumption)
  refine ⟨hnum, ?_, ?_, ?_, fun _ => ⟨rfl, rfl⟩⟩
  · rw [formatMonthlyReport_eq]
    have e1 := hnum .Stars
    have e2 := hnum .Forks
    have e3 := hnum .Watchers
    have e4 := hnum .OpenIssues
    have e5 := hnum .TotalIssues
    have e6 := hnum .TotalReleaseDownloads
    simp only [Metrics.num] at e1 e2 e3 e4 e5 e6
    simp only [reportLines, e1, e2, e3, e4, e5, e6]
  · intro label value delta hpos
    have hneg : ¬ delta < 0 := by omega
    have hnat : delta.natAbs = delta.toNat := by omega
    simp only [metricLine, fmtPlusD, hneg, if_false, hnat]
    apply String.ext
    simp only [String.data_append, List.append_assoc]
    rfl
  · intro label value
    simp only [metricLine]
    apply String.ext
    simp only [String.data_append, List.append_assoc]
    rfl

/-- C3, witness: the sample record against the zero record; the delta of the
stars is the star count, 15. -/
theorem report_without_previous_witness :
    sampleCurrent.wellTyped ∧
    (deltas sampleCurrent Metrics.zero).num .Stars = 15 ∧
    metricLine "Stars" 15 15 = "Stars: 15 (Delta: +15)" :=
  ⟨by decide, (report_without_previous sampleCurrent (by decide)).1 .Stars,
    ((report_without_previous sampleCurrent (by decide)).2.2.1 "Stars" 15 15
      (by decide)).trans (by decide)⟩

/-! ### The issue counter -/

theorem mapIndex_isSome_iff (m : GoMap) (key : String) :
    (mapIndex m key).isSome = true ↔ ∃ v, (key, v) ∈ m := by
  unfold mapIndex
  induction m with
  | nil => simp [List.lookup]
  | cons kv rest ih =>
    obtain ⟨k, v⟩ := kv
    by_cases hk : key = k
    · subst hk
      simp [List.lookup]
    · have hbeq : (key == k) = false := by simpa using hk
      simp only [List.lookup, hbeq, ih, List.mem_cons, Prod.mk.injEq]
      constructor
      · rintro ⟨w, hw⟩
        exact ⟨w, Or.inr hw⟩
      · rintro ⟨w, hw | hw⟩
        · exact absurd hw.1 hk
        · exact ⟨w, hw⟩

theorem countIssues_eq (items : List GoMap) (total : Int) :
    countIssues total items = total + ((issuesOnly items).length : Int) := by
  unfold countIssues issuesOnly
  induction items generalizing total with
  | nil => simp
  | cons item rest ih =>
    rw [List.foldl_cons, ih]
    by_cases h : (mapIndex item "pull_request").isSome = true
    · simp [List.filter, h]
    · simp only [Bool.not_eq_true] at h
      simp only [h, Bool.false_eq_true, if_false, List.filter, Bool.not_false,
        List.length_cons, Nat.cast_add, Nat.cast_one]
      ring

theorem decodedPage_ok {issues : Nat → Response Body} {page : Nat} {body : Body}
    {items : List GoMap} (hr : issues page = .ok body)
    (hu : unmarshalMaps body = .ok items) : decodedPage issues page = some items := by
  unfold decodedPage
  rw [hr]
  simp only []
  rw [hu]

theorem decodedPage_error {issues : Nat → Response Body} {page : Nat} {body : Body}
    {err : Err} (hr : issues page = .ok body)
    (hu : unmarshalMaps body = .error err) : decodedPage issues page = none := by
  unfold decodedPage
  rw [hr]
  simp only []
  rw [hu]

theorem pageError_ok {issues : Nat → Response Body} {page : Nat} {body : Body}
    {items : List GoMap} (hr : issues page = .ok body)
    (hu : unmarshalMaps body = .ok items) : pageError issues page = none := by
  unfold pageError
  rw [hr]
  simp only []
  rw [hu]

theorem pageError_error {issues : Nat → Response Body} {page : Nat} {body : Body}
    {err : Err} (hr : issues page = .ok body)
    (hu : unmarshalMaps body = .error err) : pageError issues page = some err := by
  unfold pageError
  rw [hr]
  simp only []
  rw [hu]

theorem issuesLoop_succ (issues : Nat → Response Body) (fuel page : Nat) (total : Int)
    (requests : List Nat) :
    issuesLoop issues (fuel + 1) page total requests =
      match pageError issues page with
      | some err => some ⟨0, some err, requests ++ [page]⟩
      | none =>
        if (pageItems issues page).length = 0 then
          some ⟨total, none, requests ++ [page]⟩
        else
          issuesLoop issues fuel (page + 1) (countIssues total (pageItems issues page))
            (requests ++ [page]) := by
  rw [issuesLoop]
  cases hr : issues page with
  | getFailed err => simp [pageError, hr]
  | readFailed err => simp [pageError, hr]
  | ok body =>
    cases hu : unmarshalMaps body with
    | error err =>
      rw [pageError_error hr hu]
      simp only []
      rw [hu]
    | ok items =>
      rw [pageError_ok hr hu]
      simp only [pageItems, decodedPage_ok hr hu, Option.getD_some]
      rw [hu]

theorem page_cases (issues : Nat → Response Body) (page : Nat) :
    (isNonEmptyPage issues page = true ∧ pageError issues page = none ∧
        (pageItems issues page).length ≠ 0) ∨
      (isEmptyPage issues page = true ∧ pageError issues page = none ∧
        (pageItems issues page).length = 0) ∨
      ∃ err, pageError issues page = some err ∧ isNonEmptyPage issues page = false ∧
        isEmptyPage issues page = false := by
  cases hr : issues page with
  | getFailed err =>
    exact Or.inr (Or.inr ⟨err, by simp [pageError, hr], by simp [isNonEmptyPage, decodedPage, hr],
      by simp [isEmptyPage, decodedPage, hr]⟩)
  | readFailed err =>
    exact Or.inr (Or.inr ⟨err, by simp [pageError, hr], by simp [isNonEmptyPage, decodedPage, hr],
      by simp [isEmptyPage, decodedPage, hr]⟩)
  | ok body =>
    cases hu : unmarshalMaps body with
    | error err =>
      exact Or.inr (Or.inr ⟨err, pageError_error hr hu,
        by simp [isNonEmptyPage, decodedPage_error hr hu],
        by simp [isEmptyPage, decodedPage_error hr hu]⟩)
    | ok items =>
      cases items with
      | nil =>
        exact Or.inr (Or.inl ⟨by simp [isEmptyPage, decodedPage_ok hr hu], pageError_ok hr hu,
          by simp [pageItems, decodedPage_ok hr hu]⟩)
      | cons a l =>
        exact Or.inl ⟨by simp [isNonEmptyPage, decodedPage_ok hr hu], pageError_ok hr hu,
          by simp [pageItems, decodedPage_ok hr hu]⟩

theorem nonEmptyPage_spec {issues : Nat → Response Body} {page : Nat}
    (h : isNonEmptyPage issues page = true) :
    pageError issues page = none ∧ (pageItems issues page).length ≠ 0 := by
  rcases page_cases issues page with h1 | h1 | ⟨e, h1⟩
  · exact h1.2
  · have := h1.1
    unfold isEmptyPage at this
    unfold isNonEmptyPage at h
    cases hd : decodedPage issues page with
    | none => simp [hd] at h
    | some items => cases items <;> simp [hd] at h this
  · rw [h1.2.1] at h; cases h

theorem emptyPage_spec {issues : Nat → Response Body} {page : Nat}
    (h : isEmptyPage issues page = true) :
    pageError issues page = none ∧ (pageItems issues page).length = 0 := by
  rcases page_cases issues page with h1 | h1 | ⟨e, h1⟩
  · have := h1.1
    unfold isNonEmptyPage at this
    unfold isEmptyPage at h
    cases hd : decodedPage issues page with
    | none => simp [hd] at h
    | some items => cases items <;> simp [hd] at h this
  · exact h1.2
  · rw [h1.2.2] at h; cases h

theorem issuesLoop_advance (issues : Nat → Response Body) (n : Nat) :
    ∀ (fuel page : Nat) (total : Int) (requests : List Nat),
      (∀ i, i < n → isNonEmptyPage issues (page + i) = true) →
      issuesLoop issues (fuel + n) page total requests =
        issuesLoop issues fuel (page + n) (total + issuesOnPages issues page n)
          (requests ++ List.range' page n) := by
  induction n with
  | zero =>
    intro fuel page total requests _
    simp [issuesOnPages]
  | succ n ih =>
    intro fuel page total requests h
    have h0 := nonEmptyPage_spec (h 0 (Nat.succ_pos n))
    simp only [Nat.add_zero] at h0
    have hstep : fuel + (n + 1) = (fuel + n) + 1 := by omega
    rw [hstep, issuesLoop_succ, h0.1]
    simp only [h0.2, if_false]
    rw [ih fuel (page + 1) _ _ (fun i hi => by
      have := h (i + 1) (by omega)
      rwa [show page + (i + 1) = page + 1 + i by omega] at this)]
    rw [countIssues_eq]
    have hp : page + 1 + n = page + (n + 1) := by omega
    rw [hp]
    congr 1
    · simp only [issuesOnPages, List.range'_succ, List.map_cons, List.sum_cons]
      ring
    · simp [List.range'_succ]

theorem getAllIssuesCount_stop (issues : Nat → Response Body) (k : Nat) (hk : 1 ≤ k)
    (hbefore : ∀ j, 1 ≤ j → j < k → isNonEmptyPage issues j = true)
    (fuel : Nat) (hfuel : k ≤ fuel) :
    getAllIssuesCount issues fuel =
      match pageError issues k with
      | some err => some ⟨0, some err, List.range' 1 k⟩
      | none =>
        if (pageItems issues k).length = 0 then
          some ⟨issuesOnPages issues 1 (k - 1), none, List.range' 1 k⟩
        else
          issuesLoop issues (fuel - k) (k + 1)
            (countIssues (issuesOnPages issues 1 (k - 1)) (pageItems issues k))
            (List.range' 1 k) := by
  unfold getAllIssuesCount
  have hf : fuel = (fuel - k + 1) + (k - 1) := by omega
  have hr : List.range' 1 (k - 1) ++ [k] = List.range' 1 k := by
    have : k = (k - 1) + 1 := by omega
    conv_rhs => rw [this, List.range'_concat]
    simp only [Nat.one_mul]
    congr 2
    omega
  conv_lhs => rw [hf]
  rw [issuesLoop_advance issues (k - 1) _ 1 0 [] (fun i hi => hbefore (1 + i) (by omega) (by omega))]
  rw [show 1 + (k - 1) = k by omega, issuesLoop_succ]
  simp only [List.nil_append, zero_add, hr]


theorem decodedPage_some {issues : Nat → Response Body} {page : Nat} {items : List GoMap}
    (h : decodedPage issues page = some items) :
    pageError issues page = none ∧ pageItems issues page = items ∧
      isNonEmptyPage issues page = !items.isEmpty ∧
      isEmptyPage issues page = items.isEmpty := by
  have hi : pageItems issues page = items := by simp [pageItems, h]
  have hne : isNonEmptyPage issues page = !items.isEmpty := by
    unfold isNonEmptyPage; rw [h]; cases items <;> rfl
  have he : isEmptyPage issues page = items.isEmpty := by
    unfold isEmptyPage; rw [h]; cases items <;> rfl
  refine ⟨?_, hi, hne, he⟩
  rcases page_cases issues page with h1 | h1 | ⟨e, h1⟩
  · exact h1.2.1
  · exact h1.2.1
  · rw [h1.2.1] at hne
    rw [h1.2.2] at he
    cases items <;> simp at hne he

theorem issuesOnly_append (xs ys : List GoMap) :
    issuesOnly (xs ++ ys) = issuesOnly xs ++ issuesOnly ys := by
  simp [issuesOnly]

theorem issuesLoop_pages (issues : Nat → Response Body) :
    ∀ (pages : List (List GoMap)) (fuel page : Nat) (total : Int) (requests : List Nat),
      (∀ i, i < pages.length → decodedPage issues (page + i) = pages[i]?) →
      [] ∈ pages → pages.length ≤ fuel →
      issuesLoop issues fuel page total requests =
        some ⟨total + ((issuesOnly (pagesBeforeEmpty pages).flatten).length : Int), none,
          requests ++ List.range' page ((pagesBeforeEmpty pages).length + 1)⟩ := by
  intro pages
  induction pages with
  | nil => intro _ _ _ _ _ h; cases h
  | cons p ps ih =>
    intro fuel page total requests hdec hmem hfuel
    obtain ⟨f, rfl⟩ : ∃ f, fuel = f + 1 := ⟨fuel - 1, by simp at hfuel; omega⟩
    have h0 := hdec 0 (by simp)
    simp only [Nat.add_zero, List.getElem?_cons_zero] at h0
    obtain ⟨herr, hitems, -, -⟩ := decodedPage_some h0
    rw [issuesLoop_succ, herr, hitems]
    cases p with
    | nil => simp [pagesBeforeEmpty, issuesOnly]
    | cons a l =>
      have hmem2 : [] ∈ ps := by
        rcases List.mem_cons.mp hmem with h | h
        · cases h
        · exact h
      have hdec2 : ∀ i, i < ps.length → decodedPage issues (page + 1 + i) = ps[i]? := by
        intro i hi
        have := hdec (i + 1) (by simp; omega)
        rw [List.getElem?_cons_succ] at this
        rw [← this]
        congr 1
        omega
      have hf2 : ps.length ≤ f := by simp at hfuel; omega
      simp only [List.length_cons, Nat.add_one_ne_zero, if_false]
      rw [ih f (page + 1) _ _ hdec2 hmem2 hf2, countIssues_eq]
      have htw : pagesBeforeEmpty ((a :: l) :: ps) = (a :: l) :: pagesBeforeEmpty ps := by
        simp [pagesBeforeEmpty, List.takeWhile]
      rw [htw, List.flatten_cons, issuesOnly_append]
      have e2 : (requests ++ [page]) ++
          List.range' (page + 1) ((pagesBeforeEmpty ps).length + 1) =
          requests ++ List.range' page (((a :: l) :: pagesBeforeEmpty ps).length + 1) := by
        rw [List.length_cons, List.range'_succ page]
        simp
      have e1 : total + ((issuesOnly (a :: l)).length : Int) +
          ((issuesOnly (pagesBeforeEmpty ps).flatten).length : Int) =
          total + ((issuesOnly (a :: l) ++
            issuesOnly (pagesBeforeEmpty ps).flatten).length : Int) := by
        rw [List.length_append, Nat.cast_add]
        ring
      rw [e1, e2]

theorem issuesLoop_inv (issues : Nat → Response Body) :
    ∀ (fuel page : Nat) (total : Int) (requests : List Nat) (r : IssuesResult),
      issuesLoop issues fuel page total requests = some r →
      ∃ n, (∀ i, i < n → isNonEmptyPage issues (page + i) = true) ∧
        r.requests = requests ++ List.range' page (n + 1) ∧
        ((∃ e, pageError issues (page + n) = some e ∧ r.err = some e ∧ r.count = 0) ∨
          (isEmptyPage issues (page + n) = true ∧ r.err = none ∧
            r.count = total + issuesOnPages issues page n)) := by
  intro fuel
  induction fuel with
  | zero => intro page total requests r h; simp [issuesLoop] at h
  | succ f ih =>
    intro page total requests r h
    rw [issuesLoop_succ] at h
    rcases page_cases issues page with h1 | h1 | ⟨e, h1⟩
    · rw [h1.2.1] at h
      simp only [h1.2.2, if_false] at h
      obtain ⟨n, hn, hreq, hres⟩ := ih _ _ _ _ h
      refine ⟨n + 1, ?_, ?_, ?_⟩
      · intro i hi
        cases i with
        | zero => simpa using h1.1
        | succ i =>
          have := hn i (by omega)
          rwa [show page + 1 + i = page + (i + 1) by omega] at this
      · rw [hreq, List.range'_succ page (n + 1)]
        simp
      · rw [show page + 1 + n = page + (n + 1) by omega] at hres
        rcases hres with ⟨e, he⟩ | ⟨he1, he2, he3⟩
        · exact Or.inl ⟨e, he⟩
        · refine Or.inr ⟨he1, he2, ?_⟩
          rw [he3, countIssues_eq]
          simp only [issuesOnPages, List.range'_succ page n, List.map_cons, List.sum_cons]
          ring
    · rw [h1.2.1] at h
      simp only [h1.2.2, if_true, Option.some.injEq] at h
      subst h
      exact ⟨0, fun i hi => absurd hi (Nat.not_lt_zero i), by simp,
        Or.inr ⟨by simpa using h1.1, rfl, by simp [issuesOnPages]⟩⟩
    · rw [h1.1] at h
      simp only [Option.some.injEq] at h
      subst h
      exact ⟨0, fun i hi => absurd hi (Nat.not_lt_zero i), by simp,
        Or.inl ⟨e, by simpa using h1.1, rfl, rfl⟩⟩


theorem exists_first_stop (issues : Nat → Response Body)
    (h : ∃ k, 1 ≤ k ∧ isNonEmptyPage issues k = false) :
    ∃ k, 1 ≤ k ∧ isNonEmptyPage issues k = false ∧
      ∀ j, 1 ≤ j → j < k → isNonEmptyPage issues j = true := by
  classical
  refine ⟨Nat.find h, (Nat.find_spec h).1, (Nat.find_spec h).2, ?_⟩
  intro j hj hlt
  have := Nat.find_min h hlt
  simp only [not_and, Bool.not_eq_false] at this
  exact this hj

theorem getAllIssuesCount_of_error (issues : Nat → Response Body) (k : Nat) (hk : 1 ≤ k)
    (hbefore : ∀ j, 1 ≤ j → j < k → isNonEmptyPage issues j = true)
    (e : Err) (he : pageError issues k = some e) (fuel : Nat) (hfuel : k ≤ fuel) :
    getAllIssuesCount issues fuel = some ⟨0, some e, List.range' 1 k⟩ := by
  rw [getAllIssuesCount_stop issues k hk hbefore fuel hfuel, he]

theorem getAllIssuesCount_of_empty (issues : Nat → Response Body) (k : Nat) (hk : 1 ≤ k)
    (hbefore : ∀ j, 1 ≤ j → j < k → isNonEmptyPage issues j = true)
    (he : isEmptyPage issues k = true) (fuel : Nat) (hfuel : k ≤ fuel) :
    getAllIssuesCount issues fuel =
      some ⟨issuesOnPages issues 1 (k - 1), none, List.range' 1 k⟩ := by
  rw [getAllIssuesCount_stop issues k hk hbefore fuel hfuel, (emptyPage_spec he).1]
  simp [(emptyPage_spec he).2]

/-- C4: when the pages decode to `pages` and one of them is empty,
`getAllIssuesCount` returns, without error, the number of items on the pages
before the first empty one that have no `"pull_request"` key; an item is among
the counted ones exactly when no entry of it has that key, whatever the value,
and the counted items and the items with the key add up to all items. -/
theorem issue_count_exact (issues : Nat → Response Body) (pages : List (List GoMap))
    (hpages : ∀ i, i < pages.length → decodedPage issues (i + 1) = pages[i]?)
    (hempty : [] ∈ pages) (fuel : Nat) (hfuel : pages.length ≤ fuel) :
    getAllIssuesCount issues fuel =
      some ⟨((issuesOnly (pagesBeforeEmpty pages).flatten).length : Int), none,
        List.range' 1 ((pagesBeforeEmpty pages).length + 1)⟩ ∧
    (∀ item : GoMap, item ∈ issuesOnly (pagesBeforeEmpty pages).flatten ↔
      item ∈ (pagesBeforeEmpty pages).flatten ∧ ∀ v : Value, ("pull_request", v) ∉ item) ∧
    (issuesOnly (pagesBeforeEmpty pages).flatten).length +
        (pagesBeforeEmpty pages).flatten.countP
          (fun item => (mapIndex item "pull_request").isSome) =
      (pagesBeforeEmpty pages).flatten.length := by
  refine ⟨?_, ?_, ?_⟩
  · unfold getAllIssuesCount
    rw [issuesLoop_pages issues pages fuel 1 0 []
      (fun i hi => by rw [Nat.add_comm]; exact hpages i hi) hempty hfuel]
    simp
  · intro item
    unfold issuesOnly
    rw [List.mem_filter]
    have hk := mapIndex_isSome_iff item "pull_request"
    constructor
    · rintro ⟨hm, hp⟩
      refine ⟨hm, fun v hv => ?_⟩
      have : (mapIndex item "pull_request").isSome = true := hk.mpr ⟨v, hv⟩
      simp [this] at hp
    · rintro ⟨hm, hp⟩
      refine ⟨hm, ?_⟩
      cases hs : (mapIndex item "pull_request").isSome with
      | false => rfl
      | true =>
        obtain ⟨v, hv⟩ := hk.mp hs
        exact absurd hv (hp v)
  · unfold issuesOnly
    generalize (pagesBeforeEmpty pages).flatten = xs
    induction xs with
    | nil => rfl
    | cons x xs ih =>
      cases hs : (mapIndex x "pull_request").isSome <;>
        simp [List.filter, List.countP_cons, hs] at ih ⊢ <;> omega

/-- C4, witness: two pages mixing issues and pull requests, then an empty
page; three items have no `"pull_request"` key. -/
theorem issue_count_exact_witness :
    getAllIssuesCount mixedIssues 3 = some ⟨3, none, [1, 2, 3]⟩ :=
  (issue_count_exact mixedIssues mixedPages
    (fun i hi => by
      have hi3 : i < 3 := hi
      interval_cases i <;> rfl)
    (by simp [mixedPages]) 3 (by decide)).1

/-- C5: when page `k` is the first empty page and the pages before it succeed
with at least one item, `getAllIssuesCount` returns after requesting exactly
the pages `1, 2, ..., k`, in this order, for every fuel of at least `k`
iterations; a page source that has an empty page makes the loop end; pages of
100, 100, 37 and 0 items give the four requests `1, 2, 3, 4`. -/
theorem pagination_stops_at_first_empty (issues : Nat → Response Body) :
    (∀ k, 1 ≤ k → (∀ j, 1 ≤ j → j < k → isNonEmptyPage issues j = true) →
      isEmptyPage issues k = true →
      ∀ fuel, k ≤ fuel →
        ∃ r, getAllIssuesCount issues fuel = some r ∧ r.err = none ∧
          r.requests = List.range' 1 k ∧ r.requests.length = k) ∧
    ((∃ k, 1 ≤ k ∧ isEmptyPage issues k = true) →
      ∃ k, ∀ fuel, k ≤ fuel →
        ∃ r, getAllIssuesCount issues fuel = some r ∧ r.requests = List.range' 1 k) ∧
    ((∀ i, i < 4 →
        (decodedPage issues (i + 1)).map List.length = [100, 100, 37, 0][i]?) →
      ∀ fuel, 4 ≤ fuel →
        ∃ r, getAllIssuesCount issues fuel = some r ∧ r.err = none ∧
          r.requests = [1, 2, 3, 4] ∧ r.requests.length = 4) := by
  have hA : ∀ k, 1 ≤ k → (∀ j, 1 ≤ j → j < k → isNonEmptyPage issues j = true) →
      isEmptyPage issues k = true →
      ∀ fuel, k ≤ fuel →
        ∃ r, getAllIssuesCount issues fuel = some r ∧ r.err = none ∧
          r.requests = List.range' 1 k ∧ r.requests.length = k := by
    intro k hk hbefore he fuel hfuel
    exact ⟨_, getAllIssuesCount_of_empty issues k hk hbefore he fuel hfuel, rfl, rfl,
      by simp⟩
  refine ⟨hA, ?_, ?_⟩
  · rintro ⟨k, hk, he⟩
    have hne : isNonEmptyPage issues k = false := by
      cases hn : isNonEmptyPage issues k with
      | false => rfl
      | true =>
        have h1 := (nonEmptyPage_spec hn).2
        have h2 := (emptyPage_spec he).2
        exact absurd h2 h1
    obtain ⟨k0, hk0, hstop, hbefore⟩ := exists_first_stop issues ⟨k, hk, hne⟩
    refine ⟨k0, fun fuel hfuel => ?_⟩
    rcases page_cases issues k0 with h1 | h1 | ⟨e, h1⟩
    · rw [h1.1] at hstop; cases hstop
    · exact ⟨_, getAllIssuesCount_of_empty issues k0 hk0 hbefore h1.1 fuel hfuel, rfl⟩
    · exact ⟨_, getAllIssuesCount_of_error issues k0 hk0 hbefore e h1.1 fuel hfuel, rfl⟩
  · intro hsizes fuel hfuel
    have hpage : ∀ i, i < 4 → ∃ items, decodedPage issues (i + 1) = some items ∧
        items.length = [100, 100, 37, 0][i]! := by
      intro i hi
      have := hsizes i hi
      cases hd : decodedPage issues (i + 1) with
      | none => interval_cases i <;> simp [hd] at this
      | some items =>
        refine ⟨items, rfl, ?_⟩
        interval_cases i <;> simpa [hd] using this
    have hbefore : ∀ j, 1 ≤ j → j < 4 → isNonEmptyPage issues j = true := by
      intro j hj hlt
      obtain ⟨items, hd, hlen⟩ := hpage (j - 1) (by omega)
      rw [show j - 1 + 1 = j by omega] at hd
      rw [(decodedPage_some hd).2.2.1]
      cases items with
      | nil => interval_cases j <;> simp at hlen
      | cons a l => rfl
    have he : isEmptyPage issues 4 = true := by
      obtain ⟨items, hd, hlen⟩ := hpage 3 (by omega)
      rw [(decodedPage_some hd).2.2.2]
      cases items with
      | nil => rfl
      | cons a l => simp at hlen
    obtain ⟨r, hr, herr, hreq, hlen⟩ := hA 4 (by omega) hbefore he fuel hfuel
    exact ⟨r, hr, herr, by rw [hreq]; rfl, hlen⟩

/-- C5, witness: the page source with pages of 100, 100, 37 and 0 items. -/
theorem pagination_stops_at_first_empty_witness :
    ∃ r, getAllIssuesCount sizedIssues 4 = some r ∧ r.err = none ∧
      r.requests = [1, 2, 3, 4] ∧ r.requests.length = 4 :=
  (pagination_stops_at_first_empty sizedIssues).2.2
    (fun i hi => by interval_cases i <;> rfl) 4 (by decide)

/-- C6: `getAllIssuesCount` fails exactly when some page fails (request, read
or decoding) with no empty page before it; a failing run returns the count 0
with the error of the first failing page and its last request is that page;
when the pages before page `j` succeed with items and page `j` fails, every
run of at least `j` iterations returns `(0, err)` after the requests
`1, ..., j`. -/
theorem issues_fail_iff (issues : Nat → Response Body) :
    ((∃ fuel r, getAllIssuesCount issues fuel = some r ∧ r.err ≠ none) ↔
      ∃ j, 1 ≤ j ∧ pageError issues j ≠ none ∧
        ∀ i, 1 ≤ i → i < j → isEmptyPage issues i = false) ∧
    (∀ fuel r, getAllIssuesCount issues fuel = some r → r.err ≠ none →
      r.count = 0 ∧
      ∃ j, 1 ≤ j ∧ pageError issues j = r.err ∧ r.requests = List.range' 1 j ∧
        ∀ i, 1 ≤ i → i < j → isNonEmptyPage issues i = true) ∧
    (∀ j e, 1 ≤ j → (∀ i, 1 ≤ i → i < j → isNonEmptyPage issues i = true) →
      pageError issues j = some e →
      ∀ fuel, j ≤ fuel → getAllIssuesCount issues fuel = some ⟨0, some e, List.range' 1 j⟩) := by
  have hB : ∀ fuel r, getAllIssuesCount issues fuel = some r → r.err ≠ none →
      r.count = 0 ∧
      ∃ j, 1 ≤ j ∧ pageError issues j = r.err ∧ r.requests = List.range' 1 j ∧
        ∀ i, 1 ≤ i → i < j → isNonEmptyPage issues i = true := by
    intro fuel r hr herr
    obtain ⟨n, hn, hreq, hres⟩ := issuesLoop_inv issues fuel 1 0 [] r hr
    rcases hres with ⟨e, he1, he2, he3⟩ | ⟨_, he2, _⟩
    · refine ⟨he3, 1 + n, by omega, by rw [he1, he2], by simpa [Nat.add_comm] using hreq, ?_⟩
      intro i hi hlt
      have := hn (i - 1) (by omega)
      rwa [show 1 + (i - 1) = i by omega] at this
    · exact absurd he2 herr
  refine ⟨⟨?_, ?_⟩, hB, ?_⟩
  · rintro ⟨fuel, r, hr, herr⟩
    obtain ⟨_, j, hj, hpe, _, hbefore⟩ := hB fuel r hr herr
    refine ⟨j, hj, by rw [hpe]; exact herr, fun i hi hlt => ?_⟩
    have h1 := (nonEmptyPage_spec (hbefore i hi hlt)).2
    cases hemp : isEmptyPage issues i with
    | false => rfl
    | true => exact absurd (emptyPage_spec hemp).2 h1
  · rintro ⟨j, hj, hpe, hnoempty⟩
    classical
    have hex : ∃ k, 1 ≤ k ∧ pageError issues k ≠ none := ⟨j, hj, hpe⟩
    have hk := Nat.find_spec hex
    have hle : Nat.find hex ≤ j := Nat.find_min' hex ⟨hj, hpe⟩
    have hbefore : ∀ i, 1 ≤ i → i < Nat.find hex → isNonEmptyPage issues i = true := by
      intro i hi hlt
      have hmin := Nat.find_min hex hlt
      rcases page_cases issues i with h1 | h1 | ⟨e, h1⟩
      · exact h1.1
      · have := hnoempty i hi (by omega)
        rw [h1.1] at this; cases this
      · exact absurd ⟨hi, by rw [h1.1]; simp⟩ hmin
    obtain ⟨e, he⟩ : ∃ e, pageError issues (Nat.find hex) = some e := by
      cases hp : pageError issues (Nat.find hex) with
      | none => exact absurd hp hk.2
      | some e => exact ⟨e, rfl⟩
    exact ⟨Nat.find hex, _,
      getAllIssuesCount_of_error issues _ hk.1 hbefore e he _ (Nat.le_refl _), by simp⟩
  · intro j e hj hbefore he fuel hfuel
    exact getAllIssuesCount_of_error issues j hj hbefore e he fuel hfuel

/-- C6, witness: the second page is not a JSON text; the two items of the
first page are dropped and page 3 is not requested. -/
theorem issues_fail_iff_witness :
    getAllIssuesCount failingIssues 5 = some ⟨0, some .invalidJSON, [1, 2]⟩ :=
  (issues_fail_iff failingIssues).2.2 2 .invalidJSON (by decide)
    (fun i hi hlt => by
      have : i = 1 := by omega
      subst this
      rfl)
    rfl 5 (by decide)


/-! ### The release downloads -/

theorem wrapInt_add_wrapInt (a b : Int) : wrapInt (wrapInt a + b) = wrapInt (a + b) := by
  unfold wrapInt
  omega

theorem addAsset_eq (conv : Float64 → Int) (t : Int) (asset : Value) :
    addAsset conv t asset =
      match countedOfAsset asset with
      | some f => goAdd t (floatToInt conv f)
      | none => t := by
  unfold addAsset countedOfAsset
  cases asset with
  | object m =>
    simp only []
    cases h : mapIndex m "download_count" with
    | none => rfl
    | some v => cases v <;> rfl
  | _ => rfl

theorem foldl_addAsset (conv : Float64 → Int) (assets : List Value) :
    ∀ t : Int, isInt64 t →
      assets.foldl (addAsset conv) t =
        wrapInt (t + ((assets.filterMap countedOfAsset).map (floatToInt conv)).sum) := by
  induction assets with
  | nil => intro t ht; simp [wrapInt_of_isInt64 ht]
  | cons a rest ih =>
    intro t ht
    rw [List.foldl_cons, addAsset_eq]
    cases hc : countedOfAsset a with
    | none =>
      simp only [List.filterMap_cons, hc]
      exact ih t ht
    | some f =>
      simp only [List.filterMap_cons, hc, List.map_cons, List.sum_cons]
      unfold goAdd
      rw [ih _ (isInt64_wrapInt _), wrapInt_add_wrapInt]
      congr 1
      ring

theorem addRelease_eq (conv : Float64 → Int) (t : Int) (ht : isInt64 t) (release : GoMap) :
    addRelease conv t release =
      wrapInt (t + ((countedOfRelease release).map (floatToInt conv)).sum) := by
  unfold addRelease countedOfRelease
  cases h : mapIndex release "assets" with
  | none => simp [wrapInt_of_isInt64 ht]
  | some v =>
    cases v with
    | array assets => exact foldl_addAsset conv assets t ht
    | _ => simp [wrapInt_of_isInt64 ht]

theorem foldl_addRelease (conv : Float64 → Int) (releases : List GoMap) :
    ∀ t : Int, isInt64 t →
      releases.foldl (addRelease conv) t =
        wrapInt (t + ((countedDownloads releases).map (floatToInt conv)).sum) := by
  induction releases with
  | nil => intro t ht; simp [countedDownloads, wrapInt_of_isInt64 ht]
  | cons r rest ih =>
    intro t ht
    rw [List.foldl_cons, addRelease_eq conv t ht, ih _ (isInt64_wrapInt _),
      wrapInt_add_wrapInt]
    congr 1
    simp only [countedDownloads, List.map_cons, List.flatten_cons, List.map_append,
      List.sum_append]
    ring

theorem totalDownloads_eq (conv : Float64 → Int) (releases : List GoMap) :
    totalDownloads conv releases =
      wrapInt (((countedDownloads releases).map (floatToInt conv)).sum) := by
  unfold totalDownloads
  rw [foldl_addRelease conv releases 0 (by decide), zero_add]

theorem isInt64_totalDownloads (conv : Float64 → Int) (releases : List GoMap) :
    isInt64 (totalDownloads conv releases) := by
  rw [totalDownloads_eq]
  exact isInt64_wrapInt _

theorem map_floatToInt_eq (conv : Float64 → Int) (fs : List Float64)
    (h : ∀ f ∈ fs, isInt64 f.trunc) :
    fs.map (floatToInt conv) = fs.map Float64.trunc := by
  apply List.map_congr_left
  intro f hf
  simp [floatToInt, h f hf]

theorem totalDownloads_exact (conv : Float64 → Int) (releases : List GoMap)
    (h : ∀ f ∈ countedDownloads releases, isInt64 f.trunc)
    (hsum : isInt64 (((countedDownloads releases).map Float64.trunc).sum)) :
    totalDownloads conv releases = ((countedDownloads releases).map Float64.trunc).sum := by
  rw [totalDownloads_eq, map_floatToInt_eq conv _ h, wrapInt_of_isInt64 hsum]


theorem cast_sum_trunc (fs : List Float64)
    (h : ∀ f ∈ fs, ((f.trunc : Int) : ℚ) = f.toRat) :
    (((fs.map Float64.trunc).sum : Int) : ℚ) = (fs.map Float64.toRat).sum := by
  induction fs with
  | nil => simp
  | cons f rest ih =>
    simp only [List.map_cons, List.sum_cons, Int.cast_add]
    rw [h f (List.mem_cons_self f rest),
      ih (fun g hg => h g (List.mem_cons_of_mem f hg))]

theorem trunc_nonneg {f : Float64} (h : 0 ≤ f.mant) : 0 ≤ f.trunc := by
  unfold Float64.trunc
  split
  · exact Int.mul_nonneg h (by positivity)
  · exact Int.tdiv_nonneg h (by positivity)

theorem sum_nonneg_bound (xs : List Int) (h : ∀ x ∈ xs, 0 ≤ x) :
    0 ≤ xs.sum ∧ ∀ x ∈ xs, x ≤ xs.sum := by
  induction xs with
  | nil => simp
  | cons a rest ih =>
    have ha := h a (List.mem_cons_self a rest)
    obtain ⟨h0, hle⟩ := ih (fun x hx => h x (List.mem_cons_of_mem a hx))
    refine ⟨by simp only [List.sum_cons]; omega, ?_⟩
    intro x hx
    simp only [List.sum_cons]
    rcases List.mem_cons.mp hx with rfl | hx
    · omega
    · have := hle x hx
      omega

theorem totalDownloads_nonneg (conv : Float64 → Int) (releases : List GoMap)
    (h : ∀ f ∈ countedDownloads releases, 0 ≤ f.mant)
    (hsum : ((countedDownloads releases).map Float64.trunc).sum ≤ maxInt) :
    0 ≤ totalDownloads conv releases ∧
      totalDownloads conv releases = ((countedDownloads releases).map Float64.trunc).sum := by
  have hnn : ∀ x ∈ (countedDownloads releases).map Float64.trunc, 0 ≤ x := by
    intro x hx
    obtain ⟨f, hf, rfl⟩ := List.mem_map.mp hx
    exact trunc_nonneg (h f hf)
  obtain ⟨h0, hle⟩ := sum_nonneg_bound _ hnn
  have hin : ∀ f ∈ countedDownloads releases, isInt64 f.trunc := by
    intro f hf
    have h1 := hnn _ (List.mem_map_of_mem Float64.trunc hf)
    have h2 := hle _ (List.mem_map_of_mem Float64.trunc hf)
    unfold isInt64 minInt
    unfold maxInt at hsum ⊢
    omega
  have hs : isInt64 (((countedDownloads releases).map Float64.trunc).sum) := by
    unfold isInt64 minInt
    unfold maxInt at hsum ⊢
    omega
  have := totalDownloads_exact conv releases hin hs
  exact ⟨by rw [this]; exact h0, this⟩

/-! ### `getGitHubMetrics` -/

mutual
theorem decode_decodes : ∀ j : Json, decodes j.decode = j.inFloatRange
  | .null => rfl
  | .bool _ => rfl
  | .number _ => rfl
  | .bigNumber _ => rfl
  | .string _ => rfl
  | .array items => by
    have h := decodeItems_decodes items
    rw [Json.decode, Json.inFloatRange, ← h]
    cases decodeItems items <;> rfl
  | .object entries => by
    have h := decodeEntries_decodes entries
    rw [Json.decode, Json.inFloatRange, ← h]
    cases decodeEntries entries <;> rfl
theorem decodeItems_decodes :
    ∀ items : List Json, decodes (decodeItems items) = itemsInFloatRange items
  | [] => rfl
  | j :: rest => by
    have h1 := decode_decodes j
    have h2 := decodeItems_decodes rest
    rw [decodeItems, itemsInFloatRange, ← h1, ← h2]
    cases j.decode <;> cases decodeItems rest <;> rfl
theorem decodeEntries_decodes :
    ∀ entries : List (String × Json),
      decodes (decodeEntries entries) = entriesInFloatRange entries
  | [] => rfl
  | (_, j) :: rest => by
    have h1 := decode_decodes j
    have h2 := decodeEntries_decodes rest
    rw [decodeEntries, entriesInFloatRange, ← h1, ← h2]
    cases j.decode <;> cases decodeEntries rest <;> rfl
end

theorem unmarshalMap_object (entries : List (String × Json)) :
    decodes (unmarshalMap (.json (.object entries))) = (Json.object entries).inFloatRange := by
  rw [Json.inFloatRange, ← decodeEntries_decodes]
  rfl

theorem unmarshalMaps_object (entries : List (String × Json)) :
    unmarshalMaps (.json (.object entries)) =
      .error (.typeMismatch "object" "[]map[string]interface {}") := rfl

theorem decodeReleases_object (entries : List (String × Json))
    (h : (Json.object entries).inFloatRange = true) :
    decodeReleases (.json (.object entries)) = .ok [] := by
  have hd := unmarshalMap_object entries
  rw [h] at hd
  unfold decodeReleases
  rw [unmarshalMaps_object]
  simp only []
  cases hu : unmarshalMap (.json (.object entries)) with
  | ok m => rfl
  | error e => rw [hu] at hd; cases hd

theorem decodeReleases_error (body : Body) (err : Err)
    (h1 : unmarshalMaps body = .error err)
    (h2 : ∀ entries, body = .json (.object entries) →
      (Json.object entries).inFloatRange = false) :
    decodeReleases body = .error err := by
  unfold decodeReleases
  rw [h1]
  simp only []
  cases body with
  | invalid => rfl
  | json j =>
    cases j with
    | object entries =>
      have hd := unmarshalMap_object entries
      rw [h2 entries rfl] at hd
      cases hu : unmarshalMap (.json (.object entries)) with
      | ok m => rw [hu] at hd; cases hd
      | error e => rfl
    | null => simp [unmarshalMaps] at h1
    | _ => rfl

theorem getGitHubMetrics_ok (conv : Float64 → Int) (fold : String → String)
    (server : Server) (fuel : Nat) (repoData : StructBody) (repoMetrics : Metrics)
    (releasesData : Body) (releases : List GoMap) (r : IssuesResult)
    (h1 : server.repo = .ok repoData)
    (h2 : unmarshalMetrics fold repoData Metrics.zero = (repoMetrics, none))
    (h3 : server.releases = .ok releasesData)
    (h4 : decodeReleases releasesData = .ok releases)
    (h5 : getAllIssuesCount server.issues fuel = some r) (h6 : r.err = none) :
    getGitHubMetrics conv fold server fuel =
      some ⟨{ repoMetrics with
        TotalReleaseDownloads := totalDownloads conv releases, TotalIssues := r.count }, none⟩ := by
  unfold getGitHubMetrics
  rw [h1]
  simp only []
  rw [h2]
  simp only []
  rw [h3]
  simp only []
  rw [h4]
  simp only []
  rw [h5]
  simp only []
  rw [h6]

theorem getGitHubMetrics_releases_error (conv : Float64 → Int) (fold : String → String)
    (server : Server) (fuel : Nat) (repoData : StructBody) (repoMetrics : Metrics)
    (releasesData : Body) (err : Err)
    (h1 : server.repo = .ok repoData)
    (h2 : unmarshalMetrics fold repoData Metrics.zero = (repoMetrics, none))
    (h3 : server.releases = .ok releasesData)
    (h4 : decodeReleases releasesData = .error err) :
    getGitHubMetrics conv fold server fuel = some ⟨Metrics.zero, some err⟩ := by
  unfold getGitHubMetrics
  rw [h1]
  simp only []
  rw [h2]
  simp only []
  rw [h3]
  simp only []
  rw [h4]

theorem getGitHubMetrics_inv (conv : Float64 → Int) (fold : String → String)
    (server : Server) (fuel : Nat) (m : Metrics)
    (h : getGitHubMetrics conv fold server fuel = some ⟨m, none⟩) :
    ∃ repoData repoMetrics releasesData releases r,
      server.repo = .ok repoData ∧
      unmarshalMetrics fold repoData Metrics.zero = (repoMetrics, none) ∧
      server.releases = .ok releasesData ∧
      decodeReleases releasesData = .ok releases ∧
      getAllIssuesCount server.issues fuel = some r ∧ r.err = none ∧
      m = { repoMetrics with
        TotalReleaseDownloads := totalDownloads conv releases, TotalIssues := r.count } := by
  unfold getGitHubMetrics at h
  cases h1 : server.repo with
  | getFailed e => rw [h1] at h; simp at h
  | readFailed e => rw [h1] at h; simp at h
  | ok repoData =>
    rw [h1] at h
    simp only [] at h
    cases h2 : unmarshalMetrics fold repoData Metrics.zero with
    | mk repoMetrics e2 =>
      rw [h2] at h
      cases e2 with
      | some e => simp at h
      | none =>
        simp only [] at h
        cases h3 : server.releases with
        | getFailed e => rw [h3] at h; simp at h
        | readFailed e => rw [h3] at h; simp at h
        | ok releasesData =>
          rw [h3] at h
          simp only [] at h
          cases h4 : decodeReleases releasesData with
          | error e => rw [h4] at h; simp at h
          | ok releases =>
            rw [h4] at h
            simp only [] at h
            cases h5 : getAllIssuesCount server.issues fuel with
            | none => rw [h5] at h; simp at h
            | some r =>
              rw [h5] at h
              simp only [] at h
              cases h6 : r.err with
              | some e => rw [h6] at h; simp at h
              | none =>
                rw [h6] at h
                simp only [Option.some.injEq, FetchResult.mk.injEq, and_true] at h
                exact ⟨repoData, repoMetrics, releasesData, releases, r, rfl, h2, rfl, h4,
                  rfl, h6, h.symm⟩


/-- C7, counterexample: two assets with `download_count` 0.5 each give the
total 0 although the download counts add up to 1; two assets with
`download_count` `2^62` each give the total `-2^63` although the download
counts add up to `2^63`. -/
theorem downloads_not_exact_sum :
    totalDownloads amd64OutOfRange halfReleases = 0 ∧
    ((countedDownloads halfReleases).map Float64.toRat).sum = 1 ∧
    totalDownloads amd64OutOfRange hugeReleases = -9223372036854775808 ∧
    ((countedDownloads hugeReleases).map Float64.toRat).sum = 9223372036854775808 := by
  refine ⟨by decide, ?_, by decide, ?_⟩
  · simp [halfReleases, assetWith, countedDownloads, countedOfRelease, countedOfAsset,
      mapIndex, List.lookup, Float64.toRat]
    norm_num
  · simp [hugeReleases, assetWith, countedDownloads, countedOfRelease, countedOfAsset,
      mapIndex, List.lookup, Float64.toRat]
    norm_num

/-- C7 (amended): the `TotalReleaseDownloads` that `getGitHubMetrics` stores
is the sum, over every release whose `"assets"` is a sequence and every
element of it that is an object with a numeric `"download_count"`, of the
integer part of that `download_count` (`int(count)`), in 64-bit
two's-complement arithmetic; it equals the sum of the download counts when each
of them is a whole number in the range of `int` and so is the sum.  A release
whose `"assets"` is missing or not a sequence and an asset that is not an
object or has no numeric `"download_count"` leave the total unchanged, and
there is no error.  The releases
`[{assets:[{download_count:5},{download_count:3}]}, {assets:[]}, {}]` give 8. -/
theorem downloads_total (conv : Float64 → Int) :
    (∀ (fold : String → String) (server : Server) (fuel : Nat) (m : Metrics),
      getGitHubMetrics conv fold server fuel = some ⟨m, none⟩ →
      ∃ data releases, server.releases = .ok data ∧ decodeReleases data = .ok releases ∧
        m.TotalReleaseDownloads = totalDownloads conv releases) ∧
    (∀ (fold : String → String) (server : Server) (fuel : Nat) (repoData : StructBody)
      (repoMetrics : Metrics) (data : Body) (releases : List GoMap) (r : IssuesResult),
      server.repo = .ok repoData →
      unmarshalMetrics fold repoData Metrics.zero = (repoMetrics, none) →
      server.releases = .ok data → decodeReleases data = .ok releases →
      getAllIssuesCount server.issues fuel = some r → r.err = none →
      ∃ m, getGitHubMetrics conv fold server fuel = some ⟨m, none⟩ ∧
        m.TotalReleaseDownloads = totalDownloads conv releases) ∧
    (∀ releases : List GoMap,
      totalDownloads conv releases =
        wrapInt (((countedDownloads releases).map (floatToInt conv)).sum)) ∧
    (∀ f : Float64, isInt64 f.trunc → floatToInt conv f = f.trunc) ∧
    (∀ releases : List GoMap,
      (∀ f ∈ countedDownloads releases, isInt64 f.trunc ∧ ((f.trunc : Int) : ℚ) = f.toRat) →
      isInt64 (((countedDownloads releases).map Float64.trunc).sum) →
      ((totalDownloads conv releases : Int) : ℚ) =
        ((countedDownloads releases).map Float64.toRat).sum) ∧
    (∀ (t : Int) (release : GoMap),
      (∀ assets, mapIndex release "assets" ≠ some (.array assets)) →
      addRelease conv t release = t) ∧
    (∀ (t : Int) (asset : Value),
      (∀ assetMap count, asset = .object assetMap →
        mapIndex assetMap "download_count" ≠ some (.number count)) →
      addAsset conv t asset = t) ∧
    totalDownloads conv exampleReleases = 8 := by
  refine ⟨?_, ?_, totalDownloads_eq conv, ?_, ?_, ?_, ?_, ?_⟩
  · intro fold server fuel m h
    obtain ⟨_, repoMetrics, data, releases, r, _, _, h3, h4, _, _, hm⟩ :=
      getGitHubMetrics_inv conv fold server fuel m h
    exact ⟨data, releases, h3, h4, by rw [hm]⟩
  · intro fold server fuel repoData repoMetrics data releases r h1 h2 h3 h4 h5 h6
    exact ⟨_, getGitHubMetrics_ok conv fold server fuel repoData repoMetrics data releases r
      h1 h2 h3 h4 h5 h6, rfl⟩
  · intro f hf
    simp [floatToInt, hf]
  · intro releases h hsum
    rw [totalDownloads_exact conv releases (fun f hf => (h f hf).1) hsum]
    exact cast_sum_trunc _ (fun f hf => (h f hf).2)
  · intro t release h
    unfold addRelease
    cases hm : mapIndex release "assets" with
    | none => rfl
    | some v =>
      cases v with
      | array assets => exact absurd hm (h assets)
      | _ => rfl
  · intro t asset h
    unfold addAsset
    cases asset with
    | object assetMap =>
      simp only []
      cases hm : mapIndex assetMap "download_count" with
      | none => rfl
      | some v =>
        cases v with
        | number count => exact absurd hm (h assetMap count rfl)
        | _ => rfl
    | _ => rfl
  · rw [totalDownloads_exact conv exampleReleases (by decide) (by decide)]
    decide

/-- C7, witness: releases with every skipped shape and one counted asset of 7
downloads; the total is 7, the sum of the counted download counts. -/
theorem downloads_total_witness :
    isInt64 (((countedDownloads malformedReleases).map Float64.trunc).sum) ∧
    ((totalDownloads amd64OutOfRange malformedReleases : Int) : ℚ) =
      ((countedDownloads malformedReleases).map Float64.toRat).sum ∧
    totalDownloads amd64OutOfRange malformedReleases = 7 := by
  have h1 : ∀ f ∈ countedDownloads malformedReleases,
      isInt64 f.trunc ∧ ((f.trunc : Int) : ℚ) = f.toRat := by
    intro f hf
    have : f = ⟨7, 0⟩ := by
      simpa [malformedReleases, assetWith, countedDownloads, countedOfRelease,
        countedOfAsset, mapIndex, List.lookup] using hf
    subst this
    exact ⟨by decide, by simp [Float64.trunc, Float64.toRat]⟩
  have h2 : isInt64 (((countedDownloads malformedReleases).map Float64.trunc).sum) := by
    decide
  exact ⟨h2, (downloads_total amd64OutOfRange).2.2.2.2.1 malformedReleases h1 h2,
    by decide⟩

/-- C8, counterexample: the releases body `{"message":1e400}` is a single
JSON object, not a sequence, but its number literal is outside the range of
`float64`: the decoding into the slice of maps fails, the second decoding into
a map fails too, and `getGitHubMetrics` returns the zero record with the error
of the first decoding. -/
theorem releases_object_out_of_range_counterexample :
    bigNumberServer.releases = .ok (.json (.object [("message", .bigNumber "1e400")])) ∧
    unmarshalMaps (.json (.object [("message", .bigNumber "1e400")])) =
      .error (.typeMismatch "object" "[]map[string]interface {}") ∧
    unmarshalMap (.json (.object [("message", .bigNumber "1e400")])) =
      .error (.typeMismatch "number 1e400" "float64") ∧
    decodeReleases (.json (.object [("message", .bigNumber "1e400")])) =
      .error (.typeMismatch "object" "[]map[string]interface {}") ∧
    getGitHubMetrics amd64OutOfRange upperFold bigNumberServer 3 =
      some ⟨Metrics.zero, some (.typeMismatch "object" "[]map[string]interface {}")⟩ := by
  refine ⟨rfl, rfl, rfl, rfl, ?_⟩
  decide

/-- C8 (amended): given that the repository step succeeded, a releases body
that is a single JSON object all of whose number literals are in the range of
`float64` (exactly the objects that the second decoding, into a map, accepts)
is decoded as the empty release list, so the fetch does not fail there and
stores 0 as `TotalReleaseDownloads`; a releases body that does not decode as a
sequence of maps and is not such an object (it is not an object, or it is an
object with a number literal outside the range of `float64`) makes
`getGitHubMetrics` return the zero record with the error of the first
decoding. -/
theorem releases_object_tolerated (conv : Float64 → Int) (fold : String → String)
    (server : Server) (repoData : StructBody) (repoMetrics : Metrics)
    (hrepo : server.repo = .ok repoData)
    (hdec : unmarshalMetrics fold repoData Metrics.zero = (repoMetrics, none)) :
    (∀ entries, decodes (unmarshalMap (.json (.object entries))) =
      (Json.object entries).inFloatRange) ∧
    (∀ entries, (Json.object entries).inFloatRange = true →
      decodeReleases (.json (.object entries)) = .ok []) ∧
    (∀ entries fuel r, (Json.object entries).inFloatRange = true →
      server.releases = .ok (.json (.object entries)) →
      getAllIssuesCount server.issues fuel = some r → r.err = none →
      getGitHubMetrics conv fold server fuel =
        some ⟨{ repoMetrics with TotalReleaseDownloads := 0, TotalIssues := r.count }, none⟩) ∧
    (∀ body err, unmarshalMaps body = .error err →
      (∀ entries, body = .json (.object entries) →
        (Json.object entries).inFloatRange = false) →
      decodeReleases body = .error err ∧
      (server.releases = .ok body →
        ∀ fuel, getGitHubMetrics conv fold server fuel = some ⟨Metrics.zero, some err⟩)) ∧
    (∀ entries, (Json.object entries).inFloatRange = false →
      server.releases = .ok (.json (.object entries)) →
      ∀ fuel, getGitHubMetrics conv fold server fuel =
        some ⟨Metrics.zero, some (.typeMismatch "object" "[]map[string]interface {}")⟩) := by
  have hfatal : ∀ body err, unmarshalMaps body = .error err →
      (∀ entries, body = .json (.object entries) →
        (Json.object entries).inFloatRange = false) →
      decodeReleases body = .error err ∧
      (server.releases = .ok body →
        ∀ fuel, getGitHubMetrics conv fold server fuel = some ⟨Metrics.zero, some err⟩) := by
    intro body err h1 h2
    have hd := decodeReleases_error body err h1 h2
    exact ⟨hd, fun hrel fuel =>
      getGitHubMetrics_releases_error conv fold server fuel repoData repoMetrics body err
        hrepo hdec hrel hd⟩
  refine ⟨unmarshalMap_object, decodeReleases_object, ?_, hfatal, ?_⟩
  · intro entries fuel r hrange hrel hrun herr
    have := getGitHubMetrics_ok conv fold server fuel repoData repoMetrics _ [] r hrepo hdec
      hrel (decodeReleases_object entries hrange) hrun herr
    rw [this]
    rfl
  · intro entries hrange hrel fuel
    refine (hfatal _ _ (unmarshalMaps_object entries) ?_).2 hrel fuel
    intro entries2 heq
    cases heq
    exact hrange

/-- C8, witness: with the releases body `{"message":"Not Found"}` the fetch
succeeds with 0 downloads and the 3 issues of the page source; with the
releases body `"Not Found"`, a JSON string, it returns the zero record and the
error of decoding a string into the slice of maps. -/
theorem releases_object_tolerated_witness :
    (Json.object [("message", .string "Not Found")]).inFloatRange = true ∧
    getGitHubMetrics amd64OutOfRange upperFold notFoundServer 3 =
      some ⟨{ RepositoryName := "acme/widget", Stars := 15, Forks := 7, OpenIssues := 4,
              Watchers := 3, TotalIssues := 3, TotalReleaseDownloads := 0,
              LastUpdated := "2024-05-01T00:00:00Z" }, none⟩ ∧
    getGitHubMetrics amd64OutOfRange upperFold stringReleasesServer 0 =
      some ⟨Metrics.zero, some (.typeMismatch "string" "[]map[string]interface {}")⟩ :=
  ⟨by decide,
    (releases_object_tolerated amd64OutOfRange upperFold notFoundServer repoBody
      { RepositoryName := "acme/widget", Stars := 15, Forks := 7, OpenIssues := 4,
        Watchers := 3, TotalIssues := 0, TotalReleaseDownloads := 0,
        LastUpdated := "2024-05-01T00:00:00Z" } rfl (by decide)).2.2.1
      [("message", .string "Not Found")] 3 ⟨3, none, [1, 2, 3]⟩ (by decide) rfl
      (by decide) rfl,
    ((releases_object_tolerated amd64OutOfRange upperFold stringReleasesServer repoBody
      { RepositoryName := "acme/widget", Stars := 15, Forks := 7, OpenIssues := 4,
        Watchers := 3, TotalIssues := 0, TotalReleaseDownloads := 0,
        LastUpdated := "2024-05-01T00:00:00Z" } rfl (by decide)).2.2.2.1
      (.json (.string "Not Found")) (.typeMismatch "string" "[]map[string]interface {}")
      rfl (fun _ h => by cases h)).2 rfl 0⟩

/-! ### The snapshot -/

theorem findField_key (fold : String → String) (f : Field) :
    findField fold f.key = some f := by
  cases f <;> rfl

/-- C9: a well-typed record written by `json.Marshal` and read back by
`json.Unmarshal` into the zero record, as `main` does, is the same record,
field for field, and the decoding reports no error; the two fields without a
`json` tag are written under their Go names `TotalIssues` and
`TotalReleaseDownloads`. -/
theorem snapshot_roundtrip (fold : String → String) (m : Metrics) (h : m.wellTyped) :
    unmarshalMetrics fold (marshalMetrics m) Metrics.zero = (m, none) ∧
    loadPrevious fold (some (marshalMetrics m)) = m ∧
    (∃ entries, marshalMetrics m = .object entries ∧
      ("TotalIssues", FieldValue.intLit m.TotalIssues) ∈ entries ∧
      ("TotalReleaseDownloads", FieldValue.intLit m.TotalReleaseDownloads) ∈ entries) := by
  obtain ⟨h1, h2, h3, h4, h5, h6⟩ := h
  have hu : unmarshalMetrics fold (marshalMetrics m) Metrics.zero = (m, none) := by
    simp [unmarshalMetrics, marshalMetrics, decodeFields, findField_key, setField,
      storeString, storeInt, h1, h2, h3, h4, h5, h6, Metrics.zero]
  refine ⟨hu, by simp [loadPrevious, hu], _, rfl, ?_, ?_⟩
  · simp [Field.key]
  · simp [Field.key]

/-- C9, witness: the sample record. -/
theorem snapshot_roundtrip_witness :
    sampleCurrent.wellTyped ∧
    loadPrevious upperFold (some (marshalMetrics sampleCurrent)) = sampleCurrent :=
  ⟨by decide, (snapshot_roundtrip upperFold sampleCurrent (by decide)).2.1⟩

/-! ### The sign of the download total -/

/-- C10, counterexample: a releases response with one asset whose
`download_count` is -5 is accepted and `getGitHubMetrics` stores -5. -/
theorem downloads_negative_counterexample :
    getGitHubMetrics amd64OutOfRange upperFold negativeServer 3 =
      some ⟨{ RepositoryName := "acme/widget", Stars := 15, Forks := 7, OpenIssues := 4,
              Watchers := 3, TotalIssues := 3, TotalReleaseDownloads := -5,
              LastUpdated := "2024-05-01T00:00:00Z" }, none⟩ ∧
    (-5 : Int) < 0 := by
  constructor
  · decide
  · decide

/-- C10 (amended): for every releases response that `getGitHubMetrics`
accepts, the stored total is a Go `int`, the value the two loops compute from
the decoded releases; it is non-negative, the sum of the integer parts of the
counted download counts, when each of them is non-negative and that sum does
not exceed the largest `int`.  When the repository step, the decoding of the
releases and the issue counter succeed, the response is accepted. -/
theorem downloads_nonneg (conv : Float64 → Int) (fold : String → String)
    (server : Server) (fuel : Nat) :
    (∀ m : Metrics, getGitHubMetrics conv fold server fuel = some ⟨m, none⟩ →
      isInt64 m.TotalReleaseDownloads ∧
      ∃ data releases, server.releases = .ok data ∧ decodeReleases data = .ok releases ∧
        m.TotalReleaseDownloads = totalDownloads conv releases ∧
        ((∀ f ∈ countedDownloads releases, 0 ≤ f.mant) →
          ((countedDownloads releases).map Float64.trunc).sum ≤ maxInt →
          0 ≤ m.TotalReleaseDownloads ∧
          m.TotalReleaseDownloads = ((countedDownloads releases).map Float64.trunc).sum)) ∧
    (∀ (repoData : StructBody) (repoMetrics : Metrics) (data : Body)
      (releases : List GoMap) (r : IssuesResult),
      server.repo = .ok repoData →
      unmarshalMetrics fold repoData Metrics.zero = (repoMetrics, none) →
      server.releases = .ok data → decodeReleases data = .ok releases →
      getAllIssuesCount server.issues fuel = some r → r.err = none →
      ∃ m, getGitHubMetrics conv fold server fuel = some ⟨m, none⟩ ∧
        m.TotalReleaseDownloads = totalDownloads conv releases) := by
  constructor
  · intro m h
    obtain ⟨_, repoMetrics, data, releases, r, _, _, h3, h4, _, _, hm⟩ :=
      getGitHubMetrics_inv conv fold server fuel m h
    have ht : m.TotalReleaseDownloads = totalDownloads conv releases := by rw [hm]
    refine ⟨by rw [ht]; exact isInt64_totalDownloads conv releases, data, releases, h3, h4,
      ht, ?_⟩
    intro hpos hsum
    rw [ht]
    exact totalDownloads_nonneg conv releases hpos hsum
  · intro repoData repoMetrics data releases r h1 h2 h3 h4 h5 h6
    exact ⟨_, getGitHubMetrics_ok conv fold server fuel repoData repoMetrics data releases r
      h1 h2 h3 h4 h5 h6, rfl⟩

/-- C10, witness: a releases response with assets of 5 and 3 downloads is
accepted; the counted download counts are non-negative and the stored total,
8, is non-negative. -/
theorem downloads_nonneg_witness :
    getGitHubMetrics amd64OutOfRange upperFold releasesServer 3 =
      some ⟨{ RepositoryName := "acme/widget", Stars := 15, Forks := 7, OpenIssues := 4,
              Watchers := 3, TotalIssues := 3, TotalReleaseDownloads := 8,
              LastUpdated := "2024-05-01T00:00:00Z" }, none⟩ ∧
    isInt64 (8 : Int) ∧ (0 : Int) ≤ 8 := by
  have hrun : getGitHubMetrics amd64OutOfRange upperFold releasesServer 3 =
      some ⟨{ RepositoryName := "acme/widget", Stars := 15, Forks := 7, OpenIssues := 4,
              Watchers := 3, TotalIssues := 3, TotalReleaseDownloads := 8,
              LastUpdated := "2024-05-01T00:00:00Z" }, none⟩ := by decide
  obtain ⟨hint, data, releases, hrel, hdec, -, hnn⟩ :=
    (downloads_nonneg amd64OutOfRange upperFold releasesServer 3).1 _ hrun
  simp only [releasesServer, Response.ok.injEq] at hrel
  subst hrel
  have hd : decodeReleases (.json (.array
      [ .object [("assets", .array [assetJson ⟨5, 0⟩, assetJson ⟨3, 0⟩])],
        .object [("tag_name", .string "v0")] ])) =
      .ok [ [("assets", .array
              [ .object [("download_count", .number ⟨5, 0⟩),
                  ("name", .string "widget.tar.gz")],
                .object [("download_count", .number ⟨3, 0⟩),
                  ("name", .string "widget.tar.gz")] ])],
            [("tag_name", .string "v0")] ] := rfl
  rw [hd] at hdec
  cases hdec
  exact ⟨hrun, hint, (hnn (by decide) (by decide)).1⟩

end GhMetrics
